/-
  Verification of the track-creation pipeline of `pixel-racer`.

  The development shallowly embeds the TypeScript sources
  (`TrackGeometryUtils.ts`, `CurvatureAnalyzer.ts`, `PathProcessor.ts`,
  `TrackValidator.ts`, `TrackGenerator.ts`) into Lean 4.  JavaScript
  numbers are idealised as real numbers (`Math.sqrt` becomes `Real.sqrt`,
  `Math.round x` becomes `⌊x + 1/2⌋`), arrays become `List`s, and
  index-based loops become maps/folds over `List.range`.  Boolean-valued
  runtime tests become propositions, decided classically where the source
  branches on them.
-/
import Mathlib

noncomputable section

namespace Track

open scoped Classical

open Real

/-! ## Data model -/

/-- `Point2D` from `TrackGeometryUtils.ts`: `{x, z}` ground-plane coordinates. -/
structure Point2D where
  x : ℝ
  z : ℝ
deriving Inhabited

/-- A line segment.  The source calls the second field `end`, which is a Lean
keyword, so it is named `stop` here. -/
structure Segment where
  start : Point2D
  stop : Point2D

/-- `Math.round` in JavaScript: round half away from zero is
`⌊x + 1/2⌋` for every finite input (halves round up, i.e. toward `+∞`). -/
def jround (x : ℝ) : ℤ := ⌊x + 1 / 2⌋

/-- `Math.round` with the result used again as a number. -/
def jroundR (x : ℝ) : ℝ := (jround x : ℝ)

/-! ## Geometry kernel (`TrackGeometryUtils.ts`) -/

/-- `distance`: Euclidean distance between two points. -/
def distance (p1 p2 : Point2D) : ℝ :=
  Real.sqrt ((p2.x - p1.x) * (p2.x - p1.x) + (p2.z - p1.z) * (p2.z - p1.z))

/-- `crossProduct`: cross product of the vectors `(p2-p1)` and `(p3-p1)`. -/
def crossProduct (p1 p2 p3 : Point2D) : ℝ :=
  (p2.x - p1.x) * (p3.z - p1.z) - (p2.z - p1.z) * (p3.x - p1.x)

/-- `onSegment`: the bounding-box test used for the collinear fallback of
`segmentsIntersect` — `q` lies inside the axis-aligned box spanned by `p`, `r`. -/
def onSegment (p q r : Point2D) : Prop :=
  q.x ≤ max p.x r.x ∧ min p.x r.x ≤ q.x ∧ q.z ≤ max p.z r.z ∧ min p.z r.z ≤ q.z

/-- `segmentsIntersect`: proper crossing via four cross-product sign tests,
plus the four collinear/bounding-box fallback cases.  The source's early
`return true`s become a disjunction. -/
def segmentsIntersect (seg1 seg2 : Segment) : Prop :=
  let d1 := crossProduct seg2.start seg2.stop seg1.start
  let d2 := crossProduct seg2.start seg2.stop seg1.stop
  let d3 := crossProduct seg1.start seg1.stop seg2.start
  let d4 := crossProduct seg1.start seg1.stop seg2.stop
  (((0 < d1 ∧ d2 < 0) ∨ (d1 < 0 ∧ 0 < d2)) ∧ ((0 < d3 ∧ d4 < 0) ∨ (d3 < 0 ∧ 0 < d4)))
    ∨ (d1 = 0 ∧ onSegment seg2.start seg1.start seg2.stop)
    ∨ (d2 = 0 ∧ onSegment seg2.start seg1.stop seg2.stop)
    ∨ (d3 = 0 ∧ onSegment seg1.start seg2.start seg1.stop)
    ∨ (d4 = 0 ∧ onSegment seg1.start seg2.stop seg1.stop)

/-- `calculatePathLength`: sum of consecutive segment lengths, plus the
closing segment when `closed` and more than two points. -/
def calculatePathLength (points : List Point2D) (closed : Prop := True) : ℝ :=
  if points.length < 2 then 0
  else
    ((List.range (points.length - 1)).map fun i =>
        distance (points.getD i default) (points.getD (i + 1) default)).sum
      + if closed ∧ 2 < points.length then
          distance (points.getD (points.length - 1) default) (points.getD 0 default)
        else 0

/-- Bounding box of a point list (`calculateBounds`).  The source folds
`Math.min`/`Math.max` starting from `±Infinity`; over a nonempty list that
equals folding from the first coordinate, which is how it is written here. -/
structure Bounds where
  minX : ℝ
  maxX : ℝ
  minZ : ℝ
  maxZ : ℝ
  width : ℝ
  height : ℝ

/-- `calculateBounds`. -/
def calculateBounds (points : List Point2D) : Bounds :=
  match points with
  | [] => ⟨0, 0, 0, 0, 0, 0⟩
  | p :: ps =>
    let minX := ps.foldl (fun acc q => min acc q.x) p.x
    let maxX := ps.foldl (fun acc q => max acc q.x) p.x
    let minZ := ps.foldl (fun acc q => min acc q.z) p.z
    let maxZ := ps.foldl (fun acc q => max acc q.z) p.z
    ⟨minX, maxX, minZ, maxZ, maxX - minX, maxZ - minZ⟩

/-! ## Curvature analyzer (`CurvatureAnalyzer.ts`) -/

/-- Turn classification (`CurvatureData['turnType']`). -/
inductive TurnType
  | straight
  | gentle
  | medium
  | tight
  | hairpin
deriving DecidableEq, Inhabited

/-- `CurvatureData`: per-point curvature with derived width/speed/turn type. -/
structure CurvatureData where
  curvature : ℝ
  suggestedWidth : ℝ
  suggestedSpeed : ℝ
  turnType : TurnType

-- Track width constants (in meters)
def MIN_WIDTH : ℝ := 10
def MAX_WIDTH : ℝ := 18
def STRAIGHT_WIDTH : ℝ := 18
def HAIRPIN_WIDTH : ℝ := 10

-- Speed limit constants (in km/h)
def HAIRPIN_SPEED : ℝ := 50
def TIGHT_SPEED : ℝ := 80
def MEDIUM_SPEED : ℝ := 120
def GENTLE_SPEED : ℝ := 150
def STRAIGHT_SPEED : ℝ := 180

-- Curvature thresholds
def CURVATURE_STRAIGHT : ℝ := 0.01
def CURVATURE_GENTLE : ℝ := 0.03
def CURVATURE_MEDIUM : ℝ := 0.06
def CURVATURE_TIGHT : ℝ := 0.1

/-- `calculatePointCurvature`: Menger curvature of three consecutive points,
zero when any pairwise distance is below `1e-6`. -/
def calculatePointCurvature (p0 p1 p2 : Point2D) : ℝ :=
  let a := distance p0 p1
  let b := distance p1 p2
  let c := distance p0 p2
  if a < 1e-6 ∨ b < 1e-6 ∨ c < 1e-6 then 0
  else
    let area := |(p1.x - p0.x) * (p2.z - p0.z) - (p2.x - p0.x) * (p1.z - p0.z)| / 2
    4 * area / (a * b * c)

/-- `calculateCurvature`: per-point curvature over the path, wrapping when
closed and clamping at the ends when open.  The source's `(i - 1 + n) % n` is
written `(i + n - 1) % n` so that the subtraction stays inside `ℕ`. -/
def calculateCurvature (points : List Point2D) (closed : Prop := True) : List ℝ :=
  let n := points.length
  if n < 3 then List.replicate n 0
  else
    (List.range n).map fun i =>
      let prevIdx := if closed then (i + n - 1) % n else i - 1
      let nextIdx := if closed then (i + 1) % n else min (n - 1) (i + 1)
      calculatePointCurvature (points.getD prevIdx default) (points.getD i default)
        (points.getD nextIdx default)

/-- `smoothCurvature`: centered moving average with circular indexing.  The
inner loop `j = -halfWindow .. halfWindow` is reindexed as
`k = 0 .. 2*halfWindow` with `j = k - halfWindow`; the JS index
`(i + j + n) % n` becomes an integer `emod`. -/
def smoothCurvature (curvatures : List ℝ) (windowSize : ℕ := 3) : List ℝ :=
  let n := curvatures.length
  let halfWindow := windowSize / 2
  (List.range n).map fun i =>
    let sum := ((List.range (2 * halfWindow + 1)).map fun (k : ℕ) =>
      curvatures.getD ((((i : ℤ) + ((k : ℤ) - halfWindow) + n) % n).toNat) 0).sum
    sum / (2 * halfWindow + 1)

/-- `classifyTurnType`. -/
def classifyTurnType (curvature : ℝ) : TurnType :=
  if curvature < CURVATURE_STRAIGHT then .straight
  else if curvature < CURVATURE_GENTLE then .gentle
  else if curvature < CURVATURE_MEDIUM then .medium
  else if curvature < CURVATURE_TIGHT then .tight
  else .hairpin

/-- `calculateSuggestedWidth`: linear interpolation from `MAX_WIDTH` down to
`MIN_WIDTH` between the straight and tight thresholds. -/
def calculateSuggestedWidth (curvature : ℝ) : ℝ :=
  if curvature < CURVATURE_STRAIGHT then STRAIGHT_WIDTH
  else if CURVATURE_TIGHT ≤ curvature then HAIRPIN_WIDTH
  else
    let t := (curvature - CURVATURE_STRAIGHT) / (CURVATURE_TIGHT - CURVATURE_STRAIGHT)
    MAX_WIDTH - t * (MAX_WIDTH - MIN_WIDTH)

/-- `calculateSuggestedSpeed`: discrete speed tier per turn type. -/
def calculateSuggestedSpeed (curvature : ℝ) : ℝ :=
  match classifyTurnType curvature with
  | .straight => STRAIGHT_SPEED
  | .gentle => GENTLE_SPEED
  | .medium => MEDIUM_SPEED
  | .tight => TIGHT_SPEED
  | .hairpin => HAIRPIN_SPEED

/-- `analyzeTrackCurvature`: smoothed curvature (window 5) with rounded
width and speed (speed rounded to a multiple of 10). -/
def analyzeTrackCurvature (points : List Point2D) : List CurvatureData :=
  let rawCurvatures := calculateCurvature points
  let smoothedCurvatures := smoothCurvature rawCurvatures 5
  smoothedCurvatures.map fun curvature =>
    { curvature := curvature
      suggestedWidth := jroundR (calculateSuggestedWidth curvature)
      suggestedSpeed := jroundR (calculateSuggestedSpeed curvature / 10) * 10
      turnType := classifyTurnType curvature }

/-- The default `CurvatureData` used for out-of-range reads. -/
def dfltCurv : CurvatureData := ⟨0, 0, 0, .straight⟩

/-- `countTurnsByType`: groups consecutive same-type points, counting each
contiguous non-straight run once.  The loop state is the `inTurn` flag plus
the count table. -/
def countTurnsByType (points : List Point2D) : TurnType → ℕ :=
  let curvatureData := analyzeTrackCurvature points
  let n := curvatureData.length
  let init : Bool × (TurnType → ℕ) :=
    (decide ((curvatureData.getD 0 dfltCurv).turnType ≠ .straight), fun _ => 0)
  let step : Bool × (TurnType → ℕ) → ℕ → Bool × (TurnType → ℕ) := fun st i =>
    let prevType := (curvatureData.getD (i - 1) dfltCurv).turnType
    let currType := (curvatureData.getD i dfltCurv).turnType
    if prevType = .straight ∧ currType ≠ .straight then (true, st.2)
    else if st.1 = true ∧ (currType = .straight ∨ currType ≠ prevType) then
      (decide (currType ≠ .straight),
        fun t => if t = prevType then st.2 t + 1 else st.2 t)
    else st
  let final := (List.range' 1 (n - 1)).foldl step init
  if final.1 = true then
    fun t => if t = (curvatureData.getD (n - 1) dfltCurv).turnType then final.2 t + 1
             else final.2 t
  else final.2

/-- Difficulty tiers. -/
inductive Difficulty
  | easy
  | medium
  | hard
  | expert
deriving DecidableEq, Inhabited

/-- `estimateDifficulty`: thresholds on tight/hairpin/medium turn counts. -/
def estimateDifficulty (points : List Point2D) : Difficulty :=
  let turnCounts := countTurnsByType points
  let totalTurns := turnCounts .tight + turnCounts .hairpin + turnCounts .medium
  let difficultTurns := turnCounts .tight + turnCounts .hairpin
  if 5 ≤ difficultTurns ∨ 3 ≤ turnCounts .hairpin then .expert
  else if 3 ≤ difficultTurns ∨ 8 ≤ totalTurns then .hard
  else if 1 ≤ difficultTurns ∨ 5 ≤ totalTurns then .medium
  else .easy

/-! ## Path processor (`PathProcessor.ts`) -/

/-- `TrackWaypoint` (from `TrackBuilder`): a point with derived width, speed
limit and checkpoint flag. -/
structure TrackWaypoint where
  x : ℝ
  z : ℝ
  width : ℝ
  speedLimit : ℝ
  isCheckpoint : Prop

instance : Inhabited TrackWaypoint := ⟨⟨0, 0, 0, 0, False⟩⟩

/-- `filterMinDistance`: keep the first point, then drop every point closer
than `minDistance` to the last kept point. -/
def filterMinDistance (points : List Point2D) (minDistance : ℝ) : List Point2D :=
  match points with
  | [] => []
  | p :: ps =>
    ps.foldl
      (fun filtered q =>
        if minDistance ≤ distance q (filtered.getD (filtered.length - 1) default)
        then filtered ++ [q] else filtered)
      [p]

/-- `perpendicularDistance` (the `PathProcessor.ts`-local helper): distance
from a point to the segment `lineStart`–`lineEnd`, projection clamped to
`[0,1]`. -/
def perpendicularDistance (point lineStart lineEnd : Point2D) : ℝ :=
  let dx := lineEnd.x - lineStart.x
  let dz := lineEnd.z - lineStart.z
  let lineLengthSq := dx * dx + dz * dz
  if lineLengthSq = 0 then distance point lineStart
  else
    let t := max 0 (min 1
      (((point.x - lineStart.x) * dx + (point.z - lineStart.z) * dz) / lineLengthSq))
    distance point ⟨lineStart.x + t * dx, lineStart.z + t * dz⟩

/-- The maximum-deviation scan of `douglasPeucker`: fold over the interior
indices `1 .. length-2`, keeping the first index whose perpendicular distance
to the chord (first point to last point) strictly exceeds the running
maximum; the initial accumulator is `(0, 0)`. -/
def maxPerpScan (points : List Point2D) : ℝ × ℕ :=
  let start := points.getD 0 default
  let stop := points.getD (points.length - 1) default
  (List.range' 1 (points.length - 2)).foldl
    (fun acc i =>
      let d := perpendicularDistance (points.getD i default) start stop
      if acc.1 < d then (d, i) else acc)
    (0, 0)

/-- `douglasPeucker`: recursive shape-preserving simplification.  The split
uses `slice(0, maxIndex+1)` = `take (maxIndex+1)` and `slice(maxIndex)` =
`drop maxIndex`, recombined as `left.dropLast ++ right`.

The recursion guard additionally carries the bounds `1 ≤ maxIndex ≤ n-2`,
which hold automatically whenever the scanned maximum is positive (the scan
only moves off index `0` on a strictly positive distance).  They fail only
when `tolerance < 0` and every interior deviation is `0`; on such inputs the
source recurses forever (`slice(0)` returns the whole list), so this total
model returns the endpoint pair there, the source's only sensible limit. -/
def douglasPeucker (points : List Point2D) (tolerance : ℝ) : List Point2D :=
  if h2 : points.length ≤ 2 then points
  else
    if hm : tolerance < (maxPerpScan points).1 ∧ 1 ≤ (maxPerpScan points).2 ∧
        (maxPerpScan points).2 ≤ points.length - 2 then
      (douglasPeucker (points.take ((maxPerpScan points).2 + 1)) tolerance).dropLast
        ++ douglasPeucker (points.drop (maxPerpScan points).2) tolerance
    else
      [points.getD 0 default, points.getD (points.length - 1) default]
termination_by points.length
decreasing_by
  · simp only [List.length_take]; omega
  · simp only [List.length_drop]; omega

/-- `laplacianSmooth`: each interior point moves toward the midpoint of its
neighbours by `factor`; endpoints are fixed when the path is open, and the
neighbour indices wrap when closed. -/
def laplacianSmooth (points : List Point2D) (closed : Prop) (factor : ℝ := 0.25) :
    List Point2D :=
  if points.length < 3 then points
  else
    let n := points.length
    (List.range n).map fun i =>
      let prev := if closed then points.getD ((i + n - 1) % n) default
                  else points.getD (i - 1) default
      let curr := points.getD i default
      let next := if closed then points.getD ((i + 1) % n) default
                  else points.getD (min (n - 1) (i + 1)) default
      if ¬closed ∧ (i = 0 ∨ i = n - 1) then curr
      else
        let avgX := (prev.x + next.x) / 2
        let avgZ := (prev.z + next.z) / 2
        ⟨curr.x + (avgX - curr.x) * factor, curr.z + (avgZ - curr.z) * factor⟩

/-- `tryAutoClose`: when the closure gap is positive and at most `threshold`,
replace both endpoints by their average and drop the duplicated last entry;
otherwise return the path unchanged. -/
def tryAutoClose (points : List Point2D) (threshold : ℝ) : List Point2D :=
  if points.length < 3 then points
  else
    let closureDistance :=
      distance (points.getD 0 default) (points.getD (points.length - 1) default)
    if closureDistance ≤ threshold ∧ 0 < closureDistance then
      let avgX := ((points.getD 0 default).x + (points.getD (points.length - 1) default).x) / 2
      let avgZ := ((points.getD 0 default).z + (points.getD (points.length - 1) default).z) / 2
      ((points.set 0 ⟨avgX, avgZ⟩).set (points.length - 1) ⟨avgX, avgZ⟩).dropLast
    else points

/-- The list of segments walked by `interpolateAlongPath`: indices
`0 .. segments-1` paired with their successor modulo `n`. -/
def segPairs (points : List Point2D) (closed : Prop) : List (Point2D × Point2D) :=
  let n := points.length
  (List.range (if closed then n else n - 1)).map fun i =>
    (points.getD i default, points.getD ((i + 1) % n) default)

/-- The walking loop of the `PathProcessor.ts`-local `interpolateAlongPath`,
with the running `accumulatedDist` rebased into the remaining target: the
source's `accumulatedDist + segmentLength >= targetDist` is `target ≤
segmentLength` after subtracting the distance already walked, and the
interpolation parameter `(targetDist - accumulatedDist) / segmentLength` is
`target / segmentLength`.  (For a zero-length segment chosen by the test the
source computes `0/0 = NaN`; in `ℝ` the division is `0` and the segment's
start is returned.) -/
def interpAux : List (Point2D × Point2D) → ℝ → Point2D → Point2D
  | [], _, fallback => fallback
  | (p1, p2) :: rest, target, fallback =>
    let segmentLength := distance p1 p2
    if target ≤ segmentLength then
      let t := target / segmentLength
      ⟨p1.x + t * (p2.x - p1.x), p1.z + t * (p2.z - p1.z)⟩
    else interpAux rest (target - segmentLength) fallback

/-- `interpolateAlongPath` (the `PathProcessor.ts`-local version, no
modulo normalisation): walk the segments, falling back to `points[0]` when
the target distance exceeds the total walked length. -/
def interpolateAlongPath (points : List Point2D) (targetDist : ℝ) (closed : Prop) :
    Point2D :=
  interpAux (segPairs points closed) targetDist (points.getD 0 default)

/-- `resamplePath`: `numPoints = max(8, round(totalLength/targetSpacing))`
samples at uniform arc-length positions `i/numPoints * totalLength`.
(`Math.max` over numbers is taken in `ℕ` after `toNat`; a negative rounded
value is clamped to `0` first and then to `8` by the `max`, exactly as the
JS `Math.max(8, ·)` would.) -/
def resamplePath (points : List Point2D) (targetSpacing : ℝ) (closed : Prop := True) :
    List Point2D :=
  let totalLength := calculatePathLength points closed
  let numPoints := max 8 (jround (totalLength / targetSpacing)).toNat
  (List.range numPoints).map fun (i : ℕ) =>
    interpolateAlongPath points ((i : ℝ) / numPoints * totalLength) closed

/-- The default `CurvatureData` read used by `assignTrackProperties` when an
index is out of range. -/
def markCheckpoint (wps : List TrackWaypoint) (i : ℕ) : List TrackWaypoint :=
  wps.set i { wps.getD i default with isCheckpoint := True }

/-- `assignTrackProperties`: one waypoint per point, carrying the analysed
width and speed, then the first point and the three quarter points marked as
checkpoints when there are at least four waypoints. -/
def assignTrackProperties (points : List Point2D) : List TrackWaypoint :=
  let curvatureData := analyzeTrackCurvature points
  let waypoints := (List.range points.length).map fun i =>
    let point := points.getD i default
    let data := curvatureData.getD i dfltCurv
    { x := point.x, z := point.z, width := data.suggestedWidth,
      speedLimit := data.suggestedSpeed, isCheckpoint := False : TrackWaypoint }
  if 4 ≤ waypoints.length then
    let quarter := waypoints.length / 4
    markCheckpoint (markCheckpoint (markCheckpoint (markCheckpoint waypoints 0)
      quarter) (quarter * 2)) (quarter * 3)
  else waypoints

/-- `ProcessingOptions` with its defaults. -/
structure ProcessingOptions where
  simplificationTolerance : ℝ := 3
  smoothingIterations : ℕ := 2
  minPointSpacing : ℝ := 5
  autoClose : Prop := True
  closeThreshold : ℝ := 20

/-- `processDrawingToWaypoints`: the drawn-path conditioning pipeline.
Inputs with fewer than 3 points yield the empty waypoint list. -/
def processDrawingToWaypoints (rawPoints : List Point2D)
    (options : ProcessingOptions := {}) : List TrackWaypoint :=
  if rawPoints.length < 3 then []
  else
    let points1 := filterMinDistance rawPoints (options.minPointSpacing / 2)
    let points2 := douglasPeucker points1 options.simplificationTolerance
    let points3 := (fun ps => laplacianSmooth ps False 0.25)^[options.smoothingIterations] points2
    let points4 := if options.autoClose then tryAutoClose points3 options.closeThreshold
                   else points3
    let points5 := resamplePath points4 options.minPointSpacing True
    let points6 := laplacianSmooth points5 True 0.25
    assignTrackProperties points6

/-! ## Track validator (`TrackValidator.ts`) -/

/-- `ValidationError['type']`. -/
inductive ErrorType
  | self_intersection
  | too_short
  | too_few_points
  | not_closed
  | too_narrow
  | invalid_geometry
deriving DecidableEq

/-- `ValidationError`.  The presentational `message` string is omitted; the
discriminating `type` and the attached `location` are kept. -/
structure ValidationError where
  type : ErrorType
  location : Option Point2D := none

/-- `ValidationWarning['type']`. -/
inductive WarningType
  | very_tight_turn
  | too_long
  | asymmetric
  | no_straights
deriving DecidableEq

/-- `ValidationWarning` (again without the message string). -/
structure ValidationWarning where
  type : WarningType
  location : Option Point2D := none

/-- `TrackStats`. -/
structure TrackStats where
  length : ℝ
  pointCount : ℕ
  turnCount : ℤ
  avgWidth : ℝ
  minWidth : ℝ
  difficulty : Difficulty
  boundsWidth : ℝ
  boundsHeight : ℝ
  isClosed : Prop

/-- `ValidationResult`.  `isValid` is `errors.length === 0` in the source. -/
structure ValidationResult where
  isValid : Prop
  errors : List ValidationError
  warnings : List ValidationWarning
  stats : TrackStats

-- Validation constants
def MIN_TRACK_LENGTH : ℝ := 200
def MAX_TRACK_LENGTH : ℝ := 5000
def MIN_POINT_COUNT : ℕ := 8
def MAX_CLOSURE_DISTANCE : ℝ := 20
def MIN_SEGMENT_LENGTH : ℝ := 4
def MIN_TRACK_WIDTH : ℝ := 8
def INTERSECTION_SKIP_COUNT : ℕ := 2

/-- `Math.min(...widths)` over a nonempty list (the callers guard emptiness). -/
def minList (l : List ℝ) : ℝ := l.foldl min (l.headD 0)

/-- `findSelfIntersections`: test every pair of segments `(i, i+1)` and
`(j, nextJ)` with `j ≥ i + INTERSECTION_SKIP_COUNT + 1`, skipping the
wrap-around pair `(0, n-1)` of a closed loop; a hit records the average of
the four endpoints. -/
def findSelfIntersections (points : List Point2D) (closed : Prop := True) :
    List Point2D :=
  let n := points.length
  (List.range (n - 1)).flatMap fun i =>
    let seg1 : Segment := ⟨points.getD i default, points.getD (i + 1) default⟩
    let startJ := i + INTERSECTION_SKIP_COUNT + 1
    let endJ := if closed then n else n - 1
    (List.range' startJ (endJ - startJ)).filterMap fun j =>
      let nextJ := if j = n - 1 ∧ closed then 0 else j + 1
      if closed ∧ i = 0 ∧ j = n - 1 then none
      else if n ≤ nextJ ∧ ¬closed then none
      else
        let seg2 : Segment := ⟨points.getD j default, points.getD nextJ default⟩
        if segmentsIntersect seg1 seg2 then
          some ⟨(seg1.start.x + seg1.stop.x + seg2.start.x + seg2.stop.x) / 4,
                (seg1.start.z + seg1.stop.z + seg2.start.z + seg2.stop.z) / 4⟩
        else none

/-- `hasSelfIntersections`. -/
def hasSelfIntersections (points : List Point2D) (closed : Prop := True) : Prop :=
  findSelfIntersections points closed ≠ []

/-- `validateTrack`: all checks run unconditionally, each contributing its
errors/warnings; statistics are always computed.  The `closureDistance` of a
list with fewer than 2 points is `Infinity` in the source, making `isClosed`
false; that conditional is folded into the `2 ≤ points.length` conjunct. -/
def validateTrack (points : List Point2D) (widths : Option (List ℝ) := none) :
    ValidationResult :=
  let tooFewErrors : List ValidationError :=
    if points.length < MIN_POINT_COUNT then [{ type := .too_few_points }] else []
  let closureDistance : ℝ :=
    distance (points.getD 0 default) (points.getD (points.length - 1) default)
  let isClosed : Prop := 2 ≤ points.length ∧ closureDistance ≤ MAX_CLOSURE_DISTANCE
  let notClosedErrors : List ValidationError :=
    if isClosed then []
    else [{ type := .not_closed, location := some (points.getD (points.length - 1) default) }]
  let length : ℝ := calculatePathLength points isClosed
  let tooShortErrors : List ValidationError :=
    if length < MIN_TRACK_LENGTH then [{ type := .too_short }] else []
  let tooLongWarnings : List ValidationWarning :=
    if MAX_TRACK_LENGTH < length then [{ type := .too_long }] else []
  let intersectionErrors : List ValidationError :=
    (findSelfIntersections points isClosed).map fun p =>
      { type := .self_intersection, location := some p }
  let segmentErrors : List ValidationError :=
    (List.range (points.length - 1)).filterMap fun i =>
      if distance (points.getD i default) (points.getD (i + 1) default) < MIN_SEGMENT_LENGTH
      then some { type := .invalid_geometry, location := some (points.getD i default) }
      else none
  let widthErrors : List ValidationError :=
    match widths with
    | some ws =>
      if ws ≠ [] ∧ minList ws < MIN_TRACK_WIDTH then [{ type := .too_narrow }] else []
    | none => []
  let curvatureData := analyzeTrackCurvature points
  let hairpinCount := (curvatureData.filter fun c => c.turnType = .hairpin).length
  let straightCount := (curvatureData.filter fun c => c.turnType = .straight).length
  let turnCount := (curvatureData.filter fun c => c.turnType ≠ .straight).length
  let tightWarnings : List ValidationWarning :=
    if (points.length : ℝ) * 0.3 < hairpinCount then [{ type := .very_tight_turn }] else []
  let noStraightWarnings : List ValidationWarning :=
    if straightCount = 0 ∧ 10 < points.length then [{ type := .no_straights }] else []
  let bounds := calculateBounds points
  let avgWidth : ℝ :=
    match widths with
    | some ws => if ws ≠ [] then ws.sum / ws.length else 14
    | none => 14
  let minWidth : ℝ :=
    match widths with
    | some ws => if ws ≠ [] then minList ws else 14
    | none => 14
  let errors := tooFewErrors ++ notClosedErrors ++ tooShortErrors
    ++ intersectionErrors ++ segmentErrors ++ widthErrors
  let warnings := tooLongWarnings ++ tightWarnings ++ noStraightWarnings
  { isValid := errors = []
    errors := errors
    warnings := warnings
    stats :=
      { length := length
        pointCount := points.length
        turnCount := jround ((turnCount : ℝ) / 5)
        avgWidth := avgWidth
        minWidth := minWidth
        difficulty := estimateDifficulty points
        boundsWidth := bounds.width
        boundsHeight := bounds.height
        isClosed := isClosed } }

/-! ## Procedural generator (`TrackGenerator.ts`): the deterministic parts -/

/-- The difficulty-indexed width multiplier of `adjustDifficulty`. -/
def widthModifier : Difficulty → ℝ
  | .easy => 1.2
  | .medium => 1.0
  | .hard => 0.85
  | .expert => 0.75

/-- The difficulty-indexed speed multiplier of `adjustDifficulty`. -/
def speedModifier : Difficulty → ℝ
  | .easy => 1.1
  | .medium => 1.0
  | .hard => 0.9
  | .expert => 0.8

/-- `adjustDifficulty`: rescale every width and speed limit by the
difficulty multiplier, round, and clamp to the absolute bounds. -/
def adjustDifficulty (waypoints : List TrackWaypoint) (difficulty : Difficulty) :
    List TrackWaypoint :=
  waypoints.map fun wp =>
    { wp with
      width := max 10 (min 18 (jroundR (wp.width * widthModifier difficulty)))
      speedLimit := max 40 (min 180 (jroundR (wp.speedLimit * speedModifier difficulty / 10) * 10)) }

/-- The parametric point set of `generateOvalTrack`: 24 points on an
axis-aligned ellipse with radii `worldSize*0.4*aspectRatio` and
`worldSize*0.4`. -/
def ovalPoints (worldSize aspectRatio : ℝ) : List Point2D :=
  let numPoints : ℕ := 24
  let radiusX := worldSize * 0.4 * aspectRatio
  let radiusZ := worldSize * 0.4
  (List.range numPoints).map fun (i : ℕ) =>
    let angle := ((i : ℝ) / numPoints) * π * 2
    ⟨Real.cos angle * radiusX, Real.sin angle * radiusZ⟩

/-- `generateOvalTrack`: the oval points fed through `assignTrackProperties`. -/
def generateOvalTrack (worldSize : ℝ := 200) (aspectRatio : ℝ := 1.5) :
    List TrackWaypoint :=
  assignTrackProperties (ovalPoints worldSize aspectRatio)

/-- The coordinates of a waypoint, as handed back to `validateTrack`. -/
def waypointCoords (wp : TrackWaypoint) : Point2D := ⟨wp.x, wp.z⟩

/-! ## Basic lemmas about the geometry kernel -/

lemma distance_nonneg (p q : Point2D) : 0 ≤ distance p q := Real.sqrt_nonneg _

lemma distance_self (p : Point2D) : distance p p = 0 := by
  simp [distance]

/-- Evaluate a distance whose squared value is a perfect square. -/
lemma distance_eval {p q : Point2D} {d : ℝ} (hd : 0 ≤ d)
    (h : (q.x - p.x) * (q.x - p.x) + (q.z - p.z) * (q.z - p.z) = d * d) :
    distance p q = d := by
  rw [distance, h, Real.sqrt_mul_self hd]

/-! ## C7: symmetry of `segmentsIntersect` -/

/-- C7: `segmentsIntersect` is symmetric in its two arguments: for every pair
of segments `a` and `b`, including collinear and overlapping configurations,
`segmentsIntersect a b` holds exactly when `segmentsIntersect b a` does. -/
theorem segmentsIntersect_comm (a b : Segment) :
    segmentsIntersect a b ↔ segmentsIntersect b a := by
  simp only [segmentsIntersect]
  tauto

/-! ## C8: difficulty monotonicity of `adjustDifficulty` -/

/-- The pointwise width computation of `adjustDifficulty` is monotone from
`expert` to `easy`: for nonnegative widths the multipliers `0.75 ≤ 1.2`,
rounding, and clamping preserve the order, and for negative widths both
sides clamp to the floor `10`. -/
lemma adjusted_width_mono (w : ℝ) :
    max 10 (min 18 (jroundR (w * widthModifier .expert)))
      ≤ max 10 (min 18 (jroundR (w * widthModifier .easy))) := by
  rcases le_or_lt 0 w with hw | hw
  · have h2 : jroundR (w * widthModifier .expert) ≤ jroundR (w * widthModifier .easy) := by
      simp only [jroundR, jround, widthModifier]
      have : w * 0.75 + 1 / 2 ≤ w * 1.2 + 1 / 2 := by nlinarith
      exact_mod_cast Int.floor_mono this
    exact max_le_max le_rfl (min_le_min le_rfl h2)
  · have key : ∀ m : ℝ, 0 < m → jroundR (w * m) ≤ 0 := by
      intro m hm
      have : w * m + 1 / 2 ≤ 1 / 2 := by nlinarith
      have h0 : jround (w * m) ≤ 0 := by
        have := Int.floor_mono this
        simpa [jround] using this.trans (by norm_num)
      rw [jroundR]
      exact_mod_cast h0
    have e1 : max 10 (min 18 (jroundR (w * widthModifier .expert))) = 10 := by
      have h := key (widthModifier .expert) (by norm_num [widthModifier])
      rw [min_eq_right (h.trans (by norm_num)), max_eq_left (h.trans (by norm_num))]
    have e2 : max 10 (min 18 (jroundR (w * widthModifier .easy))) = 10 := by
      have h := key (widthModifier .easy) (by norm_num [widthModifier])
      rw [min_eq_right (h.trans (by norm_num)), max_eq_left (h.trans (by norm_num))]
    rw [e1, e2]

/-- C8: difficulty adjustment is monotone in width: every waypoint's width
after `adjustDifficulty` at `expert` is at most the corresponding waypoint's
width after `adjustDifficulty` at `easy` (the `expert` multiplier `0.75` is
below the `easy` multiplier `1.2`, and rounding and clamping preserve the
ordering). -/
theorem adjustDifficulty_expert_width_le_easy (waypoints : List TrackWaypoint) (i : ℕ) :
    ((adjustDifficulty waypoints .expert).getD i default).width
      ≤ ((adjustDifficulty waypoints .easy).getD i default).width := by
  simp only [adjustDifficulty, List.getD_eq_getElem?_getD, List.getElem?_map]
  cases h : waypoints[i]? with
  | none => simp
  | some wp =>
    simpa using adjusted_width_mono wp.width

/-! ## C10: the point count of `resamplePath` -/

/-- The output length of `resamplePath` is literally its `numPoints`. -/
lemma resamplePath_length (points : List Point2D) (targetSpacing : ℝ) (closed : Prop) :
    (resamplePath points targetSpacing closed).length
      = max 8 (jround (calculatePathLength points closed / targetSpacing)).toNat := by
  simp only [resamplePath, List.length_map, List.length_range]

/-- C10: for every input path and every positive target spacing,
`resamplePath` returns `max(8, round(totalLength / targetSpacing))` points —
in particular always at least 8, no matter how short the input path is. -/
theorem resamplePath_count (points : List Point2D) (targetSpacing : ℝ) (closed : Prop)
    (hs : 0 < targetSpacing) :
    (resamplePath points targetSpacing closed).length
      = max 8 (jround (calculatePathLength points closed / targetSpacing)).toNat
    ∧ 8 ≤ (resamplePath points targetSpacing closed).length := by
  refine ⟨resamplePath_length points targetSpacing closed, ?_⟩
  rw [resamplePath_length]
  exact le_max_left _ _

/-- Witness for C10 at the concrete two-segment path `(0,0),(1,0),(0,0)`
with spacing `5`. -/
theorem resamplePath_count_witness :
    (0 : ℝ) < 5 ∧
    ((resamplePath [⟨0, 0⟩, ⟨1, 0⟩, ⟨0, 0⟩] 5 True).length
        = max 8 (jround (calculatePathLength [⟨0, 0⟩, ⟨1, 0⟩, ⟨0, 0⟩] True / 5)).toNat
      ∧ 8 ≤ (resamplePath [⟨0, 0⟩, ⟨1, 0⟩, ⟨0, 0⟩] 5 True).length) :=
  ⟨by norm_num, resamplePath_count [⟨0, 0⟩, ⟨1, 0⟩, ⟨0, 0⟩] 5 True (by norm_num)⟩

/-! ## C9: the three behaviours of `tryAutoClose` -/

/-- C9: `tryAutoClose` merges the endpoints (averaging them and dropping the
duplicate) exactly when the closure gap is strictly positive and at most the
threshold; a gap of zero (identical endpoints) and a gap above the threshold
both return the path unchanged. -/
theorem tryAutoClose_spec (points : List Point2D) (threshold : ℝ)
    (h3 : 3 ≤ points.length) :
    (distance (points.getD 0 default) (points.getD (points.length - 1) default) = 0 →
        tryAutoClose points threshold = points)
    ∧ (threshold < distance (points.getD 0 default) (points.getD (points.length - 1) default) →
        tryAutoClose points threshold = points)
    ∧ (0 < distance (points.getD 0 default) (points.getD (points.length - 1) default)
        ∧ distance (points.getD 0 default) (points.getD (points.length - 1) default) ≤ threshold →
        tryAutoClose points threshold =
          ((points.set 0 ⟨((points.getD 0 default).x + (points.getD (points.length - 1) default).x) / 2,
                          ((points.getD 0 default).z + (points.getD (points.length - 1) default).z) / 2⟩).set
            (points.length - 1)
            ⟨((points.getD 0 default).x + (points.getD (points.length - 1) default).x) / 2,
             ((points.getD 0 default).z + (points.getD (points.length - 1) default).z) / 2⟩).dropLast) := by
  have hn3 : ¬ points.length < 3 := by omega
  refine ⟨fun h0 => ?_, fun hgt => ?_, fun ⟨hpos, hle⟩ => ?_⟩
  · rw [tryAutoClose, if_neg hn3, if_neg (by rw [h0]; exact fun h => lt_irrefl 0 h.2)]
  · rw [tryAutoClose, if_neg hn3, if_neg (fun h => absurd h.1 (not_le.mpr hgt))]
  · rw [tryAutoClose, if_neg hn3, if_pos ⟨hle, hpos⟩]

/-- Witness for C9 on the concrete path `(0,0),(5,0),(10,0)` with threshold
`20`: the gap is `10`, so the endpoints are merged into `(5,0)` and the
duplicate dropped. -/
theorem tryAutoClose_spec_witness :
    (0 : ℝ) < distance (⟨0, 0⟩ : Point2D) ⟨10, 0⟩
    ∧ distance (⟨0, 0⟩ : Point2D) ⟨10, 0⟩ ≤ 20
    ∧ tryAutoClose [⟨0, 0⟩, ⟨5, 0⟩, ⟨10, 0⟩] 20 = [⟨5, 0⟩, ⟨5, 0⟩] := by
  have hd : distance (⟨0, 0⟩ : Point2D) ⟨10, 0⟩ = 10 :=
    distance_eval (by norm_num) (by norm_num)
  refine ⟨by rw [hd]; norm_num, by rw [hd]; norm_num, ?_⟩
  have h := (tryAutoClose_spec [⟨0, 0⟩, ⟨5, 0⟩, ⟨10, 0⟩] 20 (by norm_num)).2.2
  simp only [List.length_cons, List.length_nil, List.getD] at h ⊢
  rw [h (by simpa using And.intro (by rw [hd]; norm_num) (by rw [hd]; norm_num))]
  norm_num

/-! ## C2: the closure invariant of `validateTrack` -/

/-- C2: whenever `validateTrack` accepts a point sequence (with or without
supplied widths) as valid, the distance between the first and the last point
is at most `MAX_CLOSURE_DISTANCE` (20): otherwise the closure check would
have contributed a `not_closed` error and `isValid` would be false. -/
theorem validateTrack_closure_invariant (points : List Point2D) (widths : Option (List ℝ))
    (h : (validateTrack points widths).isValid) :
    distance (points.getD 0 default) (points.getD (points.length - 1) default)
      ≤ MAX_CLOSURE_DISTANCE := by
  by_contra hgt
  push_neg at hgt
  simp only [validateTrack] at h
  rw [if_neg (fun hc : 2 ≤ points.length ∧
      distance (points.getD 0 default) (points.getD (points.length - 1) default)
        ≤ MAX_CLOSURE_DISTANCE => absurd hc.2 (not_le.mpr hgt))] at h
  simp at h

/-! ## C5: a 5-point sequence is rejected without masking the other checks -/

/-- C5: on a sequence of exactly 5 points `validateTrack` returns
`isValid = false` with a `too_few_points` error, and the remaining checks
still run and contribute: an open path still yields `not_closed`, a short
path still yields `too_short`, every self-intersection still yields its
error, every too-short segment still yields `invalid_geometry`, a supplied
too-narrow width list still yields `too_narrow`, and the stats are still
computed. -/
theorem validateTrack_five_points (points : List Point2D) (widths : Option (List ℝ))
    (h5 : points.length = 5) :
    ¬ (validateTrack points widths).isValid
    ∧ (∃ e ∈ (validateTrack points widths).errors, e.type = .too_few_points)
    ∧ (¬ (validateTrack points widths).stats.isClosed →
        ∃ e ∈ (validateTrack points widths).errors, e.type = .not_closed)
    ∧ (calculatePathLength points (validateTrack points widths).stats.isClosed
          < MIN_TRACK_LENGTH →
        ∃ e ∈ (validateTrack points widths).errors, e.type = .too_short)
    ∧ (∀ p ∈ findSelfIntersections points (validateTrack points widths).stats.isClosed,
        ∃ e ∈ (validateTrack points widths).errors,
          e.type = .self_intersection ∧ e.location = some p)
    ∧ (∀ i, i + 1 < points.length →
        distance (points.getD i default) (points.getD (i + 1) default) < MIN_SEGMENT_LENGTH →
        ∃ e ∈ (validateTrack points widths).errors, e.type = .invalid_geometry)
    ∧ (∀ ws, widths = some ws → ws ≠ [] → minList ws < MIN_TRACK_WIDTH →
        ∃ e ∈ (validateTrack points widths).errors, e.type = .too_narrow)
    ∧ (validateTrack points widths).stats.pointCount = 5
    ∧ (validateTrack points widths).stats.length
        = calculatePathLength points (validateTrack points widths).stats.isClosed := by
  have htf : points.length < MIN_POINT_COUNT := by rw [h5, MIN_POINT_COUNT]; omega
  refine ⟨?_, ?_, ?_, ?_, ?_, ?_, ?_, ?_, ?_⟩
  · simp only [validateTrack, if_pos htf]
    simp
  · refine ⟨{ type := .too_few_points }, ?_, rfl⟩
    simp only [validateTrack, if_pos htf]
    simp
  · intro hnc
    refine ⟨{ type := .not_closed,
              location := some (points.getD (points.length - 1) default) }, ?_, rfl⟩
    simp only [validateTrack] at hnc ⊢
    rw [if_neg hnc]
    simp
  · intro hshort
    refine ⟨{ type := .too_short }, ?_, rfl⟩
    simp only [validateTrack] at hshort ⊢
    rw [if_pos hshort]
    simp
  · intro p hp
    refine ⟨{ type := .self_intersection, location := some p }, ?_, rfl, rfl⟩
    simp only [validateTrack] at hp ⊢
    exact List.mem_append_left _ (List.mem_append_left _
      (List.mem_append_right _ (List.mem_map_of_mem _ hp)))
  · intro i hi hshort
    refine ⟨{ type := .invalid_geometry, location := some (points.getD i default) }, ?_, rfl⟩
    simp only [validateTrack]
    refine List.mem_append_left _ (List.mem_append_right _ ?_)
    refine List.mem_filterMap.mpr ⟨i, List.mem_range.mpr (by omega), ?_⟩
    rw [if_pos hshort]
  · intro ws hws hne hmin
    refine ⟨{ type := .too_narrow }, ?_, rfl⟩
    simp only [validateTrack, hws]
    refine List.mem_append_right _ ?_
    rw [if_pos ⟨hne, hmin⟩]
    simp
  · simp only [validateTrack, h5]
  · simp only [validateTrack]

/-- `isValid` follows from the individual checks passing: enough points, a
closed loop, enough length, no self-intersection, and no short segment
(widths not supplied). -/
lemma validateTrack_isValid_of (points : List Point2D)
    (h1 : ¬ points.length < MIN_POINT_COUNT)
    (hcl : 2 ≤ points.length ∧
      distance (points.getD 0 default) (points.getD (points.length - 1) default)
        ≤ MAX_CLOSURE_DISTANCE)
    (h2 : ¬ calculatePathLength points (2 ≤ points.length ∧
      distance (points.getD 0 default) (points.getD (points.length - 1) default)
        ≤ MAX_CLOSURE_DISTANCE) < MIN_TRACK_LENGTH)
    (h3 : findSelfIntersections points (2 ≤ points.length ∧
      distance (points.getD 0 default) (points.getD (points.length - 1) default)
        ≤ MAX_CLOSURE_DISTANCE) = [])
    (h4 : ∀ i ∈ List.range (points.length - 1),
      ¬ distance (points.getD i default) (points.getD (i + 1) default) < MIN_SEGMENT_LENGTH) :
    (validateTrack points none).isValid := by
  simp only [validateTrack]
  rw [if_neg h1, if_pos hcl, if_neg h2, h3]
  rw [List.filterMap_eq_nil_iff.mpr (fun i hi => by rw [if_neg (h4 i hi)])]
  simp

/-- A concrete octagonal loop along a `80 × 80` square, closing with a
20-metre gap from `(0,20)` back to `(0,0)`: a track `validateTrack`
accepts. -/
def oct : List Point2D :=
  [⟨0, 0⟩, ⟨40, 0⟩, ⟨80, 0⟩, ⟨80, 40⟩, ⟨80, 80⟩, ⟨40, 80⟩, ⟨0, 80⟩, ⟨0, 20⟩]

/-- All pairwise distances appearing in the validation of `oct`. -/
lemma oct_dists :
    distance (⟨0, 0⟩ : Point2D) ⟨40, 0⟩ = 40 ∧ distance (⟨40, 0⟩ : Point2D) ⟨80, 0⟩ = 40 ∧
    distance (⟨80, 0⟩ : Point2D) ⟨80, 40⟩ = 40 ∧ distance (⟨80, 40⟩ : Point2D) ⟨80, 80⟩ = 40 ∧
    distance (⟨80, 80⟩ : Point2D) ⟨40, 80⟩ = 40 ∧ distance (⟨40, 80⟩ : Point2D) ⟨0, 80⟩ = 40 ∧
    distance (⟨0, 80⟩ : Point2D) ⟨0, 20⟩ = 60 ∧ distance (⟨0, 20⟩ : Point2D) ⟨0, 0⟩ = 20 ∧
    distance (⟨0, 0⟩ : Point2D) ⟨0, 20⟩ = 20 :=
  ⟨distance_eval (by norm_num) (by norm_num), distance_eval (by norm_num) (by norm_num),
   distance_eval (by norm_num) (by norm_num), distance_eval (by norm_num) (by norm_num),
   distance_eval (by norm_num) (by norm_num), distance_eval (by norm_num) (by norm_num),
   distance_eval (by norm_num) (by norm_num), distance_eval (by norm_num) (by norm_num),
   distance_eval (by norm_num) (by norm_num)⟩

/-- `oct` has no self-intersections: all 14 tested non-adjacent segment
pairs fail `segmentsIntersect`. -/
lemma oct_selfint (c : Prop) (hc : c) : findSelfIntersections oct c = [] := by
  have hni0j3 : ¬ segmentsIntersect ⟨⟨0, 0⟩, ⟨40, 0⟩⟩ ⟨⟨80, 40⟩, ⟨80, 80⟩⟩ := by
    simp only [segmentsIntersect, crossProduct, onSegment]; norm_num
  have hni0j4 : ¬ segmentsIntersect ⟨⟨0, 0⟩, ⟨40, 0⟩⟩ ⟨⟨80, 80⟩, ⟨40, 80⟩⟩ := by
    simp only [segmentsIntersect, crossProduct, onSegment]; norm_num
  have hni0j5 : ¬ segmentsIntersect ⟨⟨0, 0⟩, ⟨40, 0⟩⟩ ⟨⟨40, 80⟩, ⟨0, 80⟩⟩ := by
    simp only [segmentsIntersect, crossProduct, onSegment]; norm_num
  have hni0j6 : ¬ segmentsIntersect ⟨⟨0, 0⟩, ⟨40, 0⟩⟩ ⟨⟨0, 80⟩, ⟨0, 20⟩⟩ := by
    simp only [segmentsIntersect, crossProduct, onSegment]; norm_num
  have hni1j4 : ¬ segmentsIntersect ⟨⟨40, 0⟩, ⟨80, 0⟩⟩ ⟨⟨80, 80⟩, ⟨40, 80⟩⟩ := by
    simp only [segmentsIntersect, crossProduct, onSegment]; norm_num
  have hni1j5 : ¬ segmentsIntersect ⟨⟨40, 0⟩, ⟨80, 0⟩⟩ ⟨⟨40, 80⟩, ⟨0, 80⟩⟩ := by
    simp only [segmentsIntersect, crossProduct, onSegment]; norm_num
  have hni1j6 : ¬ segmentsIntersect ⟨⟨40, 0⟩, ⟨80, 0⟩⟩ ⟨⟨0, 80⟩, ⟨0, 20⟩⟩ := by
    simp only [segmentsIntersect, crossProduct, onSegment]; norm_num
  have hni1j7 : ¬ segmentsIntersect ⟨⟨40, 0⟩, ⟨80, 0⟩⟩ ⟨⟨0, 20⟩, ⟨0, 0⟩⟩ := by
    simp only [segmentsIntersect, crossProduct, onSegment]; norm_num
  have hni2j5 : ¬ segmentsIntersect ⟨⟨80, 0⟩, ⟨80, 40⟩⟩ ⟨⟨40, 80⟩, ⟨0, 80⟩⟩ := by
    simp only [segmentsIntersect, crossProduct, onSegment]; norm_num
  have hni2j6 : ¬ segmentsIntersect ⟨⟨80, 0⟩, ⟨80, 40⟩⟩ ⟨⟨0, 80⟩, ⟨0, 20⟩⟩ := by
    simp only [segmentsIntersect, crossProduct, onSegment]; norm_num
  have hni2j7 : ¬ segmentsIntersect ⟨⟨80, 0⟩, ⟨80, 40⟩⟩ ⟨⟨0, 20⟩, ⟨0, 0⟩⟩ := by
    simp only [segmentsIntersect, crossProduct, onSegment]; norm_num
  have hni3j6 : ¬ segmentsIntersect ⟨⟨80, 40⟩, ⟨80, 80⟩⟩ ⟨⟨0, 80⟩, ⟨0, 20⟩⟩ := by
    simp only [segmentsIntersect, crossProduct, onSegment]; norm_num
  have hni3j7 : ¬ segmentsIntersect ⟨⟨80, 40⟩, ⟨80, 80⟩⟩ ⟨⟨0, 20⟩, ⟨0, 0⟩⟩ := by
    simp only [segmentsIntersect, crossProduct, onSegment]; norm_num
  have hni4j7 : ¬ segmentsIntersect ⟨⟨80, 80⟩, ⟨40, 80⟩⟩ ⟨⟨0, 20⟩, ⟨0, 0⟩⟩ := by
    simp only [segmentsIntersect, crossProduct, onSegment]; norm_num
  have hc' : c ↔ True := iff_true_intro hc
  simp only [findSelfIntersections, oct, INTERSECTION_SKIP_COUNT, hc', if_true,
    List.length_cons, List.length_nil]
  norm_num [List.range_succ, List.range', List.getD, iff_false_intro hni0j3,
    iff_false_intro hni0j4, iff_false_intro hni0j5, iff_false_intro hni0j6,
    iff_false_intro hni1j4, iff_false_intro hni1j5, iff_false_intro hni1j6,
    iff_false_intro hni1j7, iff_false_intro hni2j5, iff_false_intro hni2j6,
    iff_false_intro hni2j7, iff_false_intro hni3j6, iff_false_intro hni3j7,
    iff_false_intro hni4j7]

/-- The perimeter of `oct` (as a closed loop) is `320`. -/
lemma oct_length_eval (c : Prop) (hc : c) : calculatePathLength oct c = 320 := by
  have hc' : c ↔ True := iff_true_intro hc
  obtain ⟨d1, d2, d3, d4, d5, d6, d7, d8, d9⟩ := oct_dists
  simp only [calculatePathLength, oct, hc', List.length_cons, List.length_nil]
  norm_num [List.range_succ, List.getD, d1, d2, d3, d4, d5, d6, d7, d8]

/-- `oct` is closed: the gap from `(0,0)` to `(0,20)` is exactly `20`. -/
lemma oct_closure :
    2 ≤ oct.length ∧
      distance (oct.getD 0 default) (oct.getD (oct.length - 1) default)
        ≤ MAX_CLOSURE_DISTANCE := by
  obtain ⟨d1, d2, d3, d4, d5, d6, d7, d8, d9⟩ := oct_dists
  refine ⟨by norm_num [oct], ?_⟩
  norm_num [oct, List.getD, d9, MAX_CLOSURE_DISTANCE]

/-- `validateTrack` accepts `oct`. -/
lemma oct_isValid : (validateTrack oct none).isValid := by
  obtain ⟨d1, d2, d3, d4, d5, d6, d7, d8, d9⟩ := oct_dists
  apply validateTrack_isValid_of
  · norm_num [oct, MIN_POINT_COUNT]
  · exact oct_closure
  · rw [oct_length_eval _ oct_closure]; norm_num [MIN_TRACK_LENGTH]
  · exact oct_selfint _ oct_closure
  · intro i hi
    fin_cases hi <;>
      norm_num [oct, List.getD, d1, d2, d3, d4, d5, d6, d7, MIN_SEGMENT_LENGTH]

/-- Witness for C2: `oct` is accepted as valid by `validateTrack`, and the
closure invariant instantiated at it bounds its endpoint gap by 20. -/
theorem validateTrack_closure_invariant_witness :
    (validateTrack oct none).isValid ∧
    distance (oct.getD 0 default) (oct.getD (oct.length - 1) default)
      ≤ MAX_CLOSURE_DISTANCE :=
  ⟨oct_isValid, validateTrack_closure_invariant oct none oct_isValid⟩

/-- Witness for C5 at the concrete 5-point sequence
`(0,0),(50,0),(100,0),(100,50),(0,50)`. -/
theorem validateTrack_five_points_witness :
    ([(⟨0, 0⟩ : Point2D), ⟨50, 0⟩, ⟨100, 0⟩, ⟨100, 50⟩, ⟨0, 50⟩].length = 5)
    ∧ ¬ (validateTrack [⟨0, 0⟩, ⟨50, 0⟩, ⟨100, 0⟩, ⟨100, 50⟩, ⟨0, 50⟩] none).isValid
    ∧ (∃ e ∈ (validateTrack [⟨0, 0⟩, ⟨50, 0⟩, ⟨100, 0⟩, ⟨100, 50⟩, ⟨0, 50⟩] none).errors,
        e.type = .too_few_points) :=
  ⟨by norm_num,
   (validateTrack_five_points _ none (by norm_num)).1,
   (validateTrack_five_points _ none (by norm_num)).2.1⟩


lemma head?_eq_getD {l : List Point2D} (h : l ≠ []) :
    l.head? = some (l.getD 0 default) := by
  cases l with
  | nil => exact absurd rfl h
  | cons a t => simp [List.getD]

lemma getLast?_eq_getD {l : List Point2D} (h : l ≠ []) :
    l.getLast? = some (l.getD (l.length - 1) default) := by
  rw [List.getLast?_eq_getElem?, List.getD_eq_getElem?_getD]
  have hlt : l.length - 1 < l.length := by
    cases l with
    | nil => exact absurd rfl h
    | cons a t => simp
  rw [List.getElem?_eq_getElem hlt]
  simp

lemma endpoints_sublist {l : List Point2D} (h2 : 2 ≤ l.length) :
    List.Sublist [l.getD 0 default, l.getD (l.length - 1) default] l := by
  cases l with
  | nil => simp at h2
  | cons a t =>
    have ht : t ≠ [] := by
      intro h; subst h; simp at h2
    have h0 : (a :: t).getD 0 default = a := by simp [List.getD]
    have hlast : (a :: t).getD ((a :: t).length - 1) default = t.getLast ht := by
      have h1 := getLast?_eq_getD (l := a :: t) (by simp)
      rw [List.getLast?_eq_getLast _ (by simp), Option.some_inj] at h1
      rw [← h1, List.getLast_cons ht]
    rw [h0, hlast]
    exact List.cons_sublist_cons.mpr (List.singleton_sublist.mpr (List.getLast_mem ht))


lemma head?_dropLast {l : List Point2D} (h : 2 ≤ l.length) :
    l.dropLast.head? = l.head? := by
  match l, h with
  | a :: b :: t, _ => simp

lemma head?_take_succ (l : List Point2D) (n : ℕ) : (l.take (n + 1)).head? = l.head? := by
  cases l <;> simp

lemma getLast?_drop_of_lt {l : List Point2D} {m : ℕ} (h : m < l.length) :
    (l.drop m).getLast? = l.getLast? := by
  rw [List.getLast?_eq_getElem?, List.getLast?_eq_getElem?, List.getElem?_drop,
    List.length_drop]
  congr 1
  omega

lemma sublist_dropLast_of_sublist_concat {l t : List Point2D} {x : Point2D}
    (h : List.Sublist l (t ++ [x])) : List.Sublist l.dropLast t := by
  rcases List.sublist_append_iff.mp h with ⟨l1, l2, rfl, h1, h2⟩
  rcases List.sublist_singleton.mp h2 with rfl | rfl
  · rw [List.append_nil]
    exact (List.dropLast_sublist l1).trans h1
  · rw [List.dropLast_concat]
    exact h1

lemma douglasPeucker_length2 : ∀ (points : List Point2D) (tol : ℝ),
    2 ≤ points.length → 2 ≤ (douglasPeucker points tol).length := by
  intro points tol
  induction points, tol using douglasPeucker.induct with
  | case1 points tol h2 =>
    intro h; rw [douglasPeucker, dif_pos h2]; exact h
  | case2 points tol h2 hm ih1 ih2 =>
    intro h
    rw [douglasPeucker, dif_neg h2, dif_pos hm]
    have hlen : 3 ≤ points.length := by omega
    have h1 := ih1 (by simp only [List.length_take]; omega)
    have hd := ih2 (by simp only [List.length_drop]; omega)
    simp only [List.length_append, List.length_dropLast]
    omega
  | case3 points tol h2 hm =>
    intro h
    rw [douglasPeucker, dif_neg h2, dif_neg hm]
    simp

lemma douglasPeucker_ne_nil {points : List Point2D} {tol : ℝ} (h : 2 ≤ points.length) :
    douglasPeucker points tol ≠ [] := by
  have := douglasPeucker_length2 points tol h
  intro hnil
  rw [hnil] at this
  simp at this

lemma douglasPeucker_head? : ∀ (points : List Point2D) (tol : ℝ), 2 ≤ points.length →
    (douglasPeucker points tol).head? = points.head? := by
  intro points tol
  induction points, tol using douglasPeucker.induct with
  | case1 points tol h2 => intro h; rw [douglasPeucker, dif_pos h2]
  | case2 points tol h2 hm ih1 ih2 =>
    intro h
    rw [douglasPeucker, dif_neg h2, dif_pos hm]
    have hlen : 3 ≤ points.length := by omega
    have htake2 : 2 ≤ (points.take ((maxPerpScan points).2 + 1)).length := by
      simp only [List.length_take]; omega
    have hTl := douglasPeucker_length2 _ tol htake2
    rw [List.head?_append_of_ne_nil]
    · rw [head?_dropLast hTl, ih1 htake2, head?_take_succ]
    · intro hnil
      have := congrArg List.length hnil
      simp only [List.length_dropLast, List.length_nil] at this
      omega
  | case3 points tol h2 hm =>
    intro h
    rw [douglasPeucker, dif_neg h2, dif_neg hm]
    have hne : points ≠ [] := by intro hh; rw [hh] at h; simp at h
    simp only [List.head?_cons]
    exact (head?_eq_getD hne).symm

lemma douglasPeucker_getLast? : ∀ (points : List Point2D) (tol : ℝ), 2 ≤ points.length →
    (douglasPeucker points tol).getLast? = points.getLast? := by
  intro points tol
  induction points, tol using douglasPeucker.induct with
  | case1 points tol h2 => intro h; rw [douglasPeucker, dif_pos h2]
  | case2 points tol h2 hm ih1 ih2 =>
    intro h
    rw [douglasPeucker, dif_neg h2, dif_pos hm]
    have hlen : 3 ≤ points.length := by omega
    have hdrop2 : 2 ≤ (points.drop (maxPerpScan points).2).length := by
      simp only [List.length_drop]; omega
    rw [List.getLast?_append_of_ne_nil _ (douglasPeucker_ne_nil hdrop2), ih2 hdrop2,
      getLast?_drop_of_lt (by omega)]
  | case3 points tol h2 hm =>
    intro h
    rw [douglasPeucker, dif_neg h2, dif_neg hm]
    have hne : points ≠ [] := by intro hh; rw [hh] at h; simp at h
    rw [List.getLast?_eq_getElem?]
    simp only [List.length_cons, List.length_nil]
    rw [show (0 + 1 + 1 - 1 : ℕ) = 1 by rfl]
    simp only [List.getElem?_cons_succ, List.getElem?_cons_zero]
    exact (getLast?_eq_getD hne).symm

lemma douglasPeucker_sublist : ∀ (points : List Point2D) (tol : ℝ),
    List.Sublist (douglasPeucker points tol) points := by
  intro points tol
  induction points, tol using douglasPeucker.induct with
  | case1 points tol h2 => rw [douglasPeucker, dif_pos h2]
  | case2 points tol h2 hm ih1 ih2 =>
    rw [douglasPeucker, dif_neg h2, dif_pos hm]
    conv_rhs => rw [← List.take_append_drop (maxPerpScan points).2 points]
    refine List.Sublist.append ?_ ih2
    have hmlt : (maxPerpScan points).2 < points.length := by omega
    have htakeeq : points.take ((maxPerpScan points).2 + 1)
        = points.take (maxPerpScan points).2 ++ [points.getD (maxPerpScan points).2 default] := by
      rw [List.take_succ, List.getElem?_eq_getElem hmlt]
      simp [List.getD_eq_getElem?_getD, List.getElem?_eq_getElem hmlt]
    refine sublist_dropLast_of_sublist_concat (x := points.getD (maxPerpScan points).2 default) ?_
    rw [← htakeeq]
    exact ih1
  | case3 points tol h2 hm =>
    rw [douglasPeucker, dif_neg h2, dif_neg hm]
    exact endpoints_sublist (by omega)


/-- The fold step of `maxPerpScan`, abstracted over the distance function. -/
def scanStep (f : ℕ → ℝ) : ℝ × ℕ → ℕ → ℝ × ℕ := fun acc i =>
  if acc.1 < f i then (f i, i) else acc

lemma maxPerpScan_eq (points : List Point2D) :
    maxPerpScan points
      = (List.range' 1 (points.length - 2)).foldl
          (scanStep fun i => perpendicularDistance (points.getD i default)
            (points.getD 0 default) (points.getD (points.length - 1) default))
          (0, 0) := rfl

/-- Invariant characterisation of the first-strict-max fold. -/
lemma scanStep_go (f : ℕ → ℝ) :
    ∀ (l : List ℕ) (acc : ℝ × ℕ),
      l.Pairwise (· < ·) →
      (l.foldl (scanStep f) acc = acc ∧ ∀ i ∈ l, f i ≤ acc.1) ∨
      ((l.foldl (scanStep f) acc).2 ∈ l ∧ acc.1 < (l.foldl (scanStep f) acc).1 ∧
        f (l.foldl (scanStep f) acc).2 = (l.foldl (scanStep f) acc).1 ∧
        (∀ i ∈ l, f i ≤ (l.foldl (scanStep f) acc).1) ∧
        (∀ i ∈ l, i < (l.foldl (scanStep f) acc).2 → f i < (l.foldl (scanStep f) acc).1)) := by
  intro l
  induction l with
  | nil => intro acc _; exact Or.inl ⟨rfl, by simp⟩
  | cons a t ih =>
    intro acc hp
    have hpt : t.Pairwise (· < ·) := hp.of_cons
    have hat : ∀ i ∈ t, a < i := fun i hi => List.rel_of_pairwise_cons hp hi
    by_cases hup : acc.1 < f a
    · have hstep : scanStep f acc a = (f a, a) := by simp [scanStep, hup]
      rw [List.foldl_cons, hstep]
      rcases ih (f a, a) hpt with ⟨heq, hle⟩ | ⟨hmem, hlt, hfv, hle, hbefore⟩
      · rw [heq]
        refine Or.inr ⟨List.mem_cons_self a t, hup, rfl, ?_, ?_⟩
        · intro i hi
          rcases List.mem_cons.mp hi with h | h
          · subst h; exact le_refl _
          · exact hle i h
        · intro i hi hlt2
          rcases List.mem_cons.mp hi with h | h
          · subst h; exact absurd hlt2 (lt_irrefl _)
          · exact absurd hlt2 (not_lt.mpr (le_of_lt (hat i h)))
      · refine Or.inr ⟨List.mem_cons_of_mem a hmem, lt_trans hup hlt, hfv, ?_, ?_⟩
        · intro i hi
          rcases List.mem_cons.mp hi with h | h
          · subst h; exact le_of_lt hlt
          · exact hle i h
        · intro i hi hlt2
          rcases List.mem_cons.mp hi with h | h
          · subst h; exact hlt
          · exact hbefore i h hlt2
    · have hstep : scanStep f acc a = acc := by simp [scanStep, hup]
      rw [List.foldl_cons, hstep]
      rcases ih acc hpt with ⟨heq, hle⟩ | ⟨hmem, hlt, hfv, hle, hbefore⟩
      · refine Or.inl ⟨heq, ?_⟩
        intro i hi
        rcases List.mem_cons.mp hi with h | h
        · subst h; exact not_lt.mp hup
        · exact hle i h
      · refine Or.inr ⟨List.mem_cons_of_mem a hmem, hlt, hfv, ?_, ?_⟩
        · intro i hi
          rcases List.mem_cons.mp hi with h | h
          · subst h; exact le_of_lt (lt_of_le_of_lt (not_lt.mp hup) hlt)
          · exact hle i h
        · intro i hi hlt2
          rcases List.mem_cons.mp hi with h | h
          · subst h; exact lt_of_le_of_lt (not_lt.mp hup) hlt
          · exact hbefore i h hlt2

lemma point_eta (p : Point2D) : (⟨p.x, p.z⟩ : Point2D) = p := rfl

lemma perpendicularDistance_left (a b : Point2D) : perpendicularDistance a a b = 0 := by
  simp only [perpendicularDistance]
  split
  · exact distance_self a
  · simp only [sub_self, zero_mul, add_zero, zero_div, mul_zero, zero_add]
    norm_num
    rw [point_eta, distance_self]

lemma perpendicularDistance_right (a b : Point2D) : perpendicularDistance b a b = 0 := by
  simp only [perpendicularDistance]
  split
  · next h =>
    have hx : b.x - a.x = 0 := by nlinarith [sq_nonneg (b.x - a.x), sq_nonneg (b.z - a.z)]
    have hz : b.z - a.z = 0 := by nlinarith [sq_nonneg (b.x - a.x), sq_nonneg (b.z - a.z)]
    have : b = a := by
      cases a; cases b
      simp only [Point2D.mk.injEq]
      constructor <;> [linarith [hx]; linarith [hz]]
    rw [this, distance_self]
  · next h =>
    rw [div_self h]
    norm_num
    rw [point_eta, distance_self]

/-- The deviation of the `i`-th point from the chord between the endpoints,
as scanned by `maxPerpScan`. -/
def perpAt (points : List Point2D) (i : ℕ) : ℝ :=
  perpendicularDistance (points.getD i default) (points.getD 0 default)
    (points.getD (points.length - 1) default)

lemma maxPerpScan_spec (points : List Point2D) :
    (maxPerpScan points = (0, 0) ∧
      ∀ i, 1 ≤ i → i ≤ points.length - 2 → perpAt points i ≤ 0)
    ∨ (1 ≤ (maxPerpScan points).2 ∧ (maxPerpScan points).2 ≤ points.length - 2 ∧
        0 < (maxPerpScan points).1 ∧
        perpAt points (maxPerpScan points).2 = (maxPerpScan points).1 ∧
        (∀ i, 1 ≤ i → i ≤ points.length - 2 → perpAt points i ≤ (maxPerpScan points).1) ∧
        (∀ i, 1 ≤ i → i ≤ points.length - 2 → i < (maxPerpScan points).2 →
          perpAt points i < (maxPerpScan points).1)) := by
  have hpair : (List.range' 1 (points.length - 2)).Pairwise (· < ·) := by
    simpa using List.pairwise_lt_range' 1 (points.length - 2)
  have hmem : ∀ i, i ∈ List.range' 1 (points.length - 2) ↔ 1 ≤ i ∧ i ≤ points.length - 2 := by
    intro i
    rw [List.mem_range'_1]
    omega
  have hfold := scanStep_go (perpAt points) (List.range' 1 (points.length - 2)) (0, 0) hpair
  rw [show (List.range' 1 (points.length - 2)).foldl (scanStep (perpAt points)) (0, 0)
      = maxPerpScan points from (maxPerpScan_eq points).symm] at hfold
  rcases hfold with ⟨heq, hle⟩ | ⟨hmem2, hlt, hfv, hle, hbefore⟩
  · exact Or.inl ⟨heq, fun i h1 h2 => hle i ((hmem i).mpr ⟨h1, h2⟩)⟩
  · right
    obtain ⟨hm1, hm2⟩ := (hmem _).mp hmem2
    exact ⟨hm1, hm2, hlt, hfv, fun i h1 h2 => hle i ((hmem i).mpr ⟨h1, h2⟩),
      fun i h1 h2 h3 => hbefore i ((hmem i).mpr ⟨h1, h2⟩) h3⟩

/-- Uniqueness: the scan result is determined by the first-strict-max data. -/
lemma maxPerpScan_eq_of (points : List Point2D) (v : ℝ) (pos : ℕ)
    (hpos1 : 1 ≤ pos) (hpos2 : pos ≤ points.length - 2)
    (hv : perpAt points pos = v) (h0 : 0 < v)
    (hle : ∀ i, 1 ≤ i → i ≤ points.length - 2 → perpAt points i ≤ v)
    (hlt : ∀ i, 1 ≤ i → i ≤ points.length - 2 → i < pos → perpAt points i < v) :
    maxPerpScan points = (v, pos) := by
  rcases maxPerpScan_spec points with ⟨heq, hall⟩ | ⟨hm1, hm2, hmlt, hfv, hmle, hmbefore⟩
  · exact absurd (hv ▸ hall pos hpos1 hpos2) (not_le.mpr h0)
  · have hval : (maxPerpScan points).1 = v := by
      refine le_antisymm (hfv ▸ hle _ hm1 hm2) (hv ▸ hmle pos hpos1 hpos2)
    have hposeq : (maxPerpScan points).2 = pos := by
      rcases lt_trichotomy (maxPerpScan points).2 pos with h | h | h
      · exact absurd (hlt _ hm1 hm2 h) (by rw [hfv, hval]; exact lt_irrefl v)
      · exact h
      · exact absurd (hmbefore pos hpos1 hpos2 h) (by rw [hv, hval]; exact lt_irrefl v)
    rw [← hval, ← hposeq]


lemma douglasPeucker_short {points : List Point2D} {tol : ℝ} (h : points.length ≤ 2) :
    douglasPeucker points tol = points := by
  rw [douglasPeucker, dif_pos h]

lemma getD_eq_getElem {l : List Point2D} {i : ℕ} (h : i < l.length) :
    l.getD i default = l[i] := by
  rw [List.getD_eq_getElem?_getD, List.getElem?_eq_getElem h, Option.getD_some]

/-- C4: Douglas–Peucker simplification is idempotent: for every point
sequence and every tolerance, applying `douglasPeucker` to its own output
with the same tolerance returns that output unchanged.  The key invariant:
the split point is the first interior point attaining the maximum deviation
from the chord, it survives into the output at the seam of the two halves,
every retained point left of the seam deviates strictly less, and every
retained point right of the seam deviates at most the maximum — so the
second run scans to the same maximum, splits at the same point, and by
induction reproduces both halves. -/
theorem douglasPeucker_idempotent : ∀ (points : List Point2D) (tolerance : ℝ),
    douglasPeucker (douglasPeucker points tolerance) tolerance
      = douglasPeucker points tolerance := by
  intro points tol
  induction points, tol using douglasPeucker.induct with
  | case1 points tol h2 =>
    rw [douglasPeucker_short h2, douglasPeucker_short h2]
  | case3 points tol h2 hm =>
    have hstep : douglasPeucker points tol
        = [points.getD 0 default, points.getD (points.length - 1) default] := by
      rw [douglasPeucker, dif_neg h2, dif_neg hm]
    rw [hstep, douglasPeucker_short (by simp)]
  | case2 points tol h2 hm ih1 ih2 =>
    obtain ⟨hmt, hm1, hm2⟩ := hm
    have hlen3 : 3 ≤ points.length := by omega
    have hmlt : (maxPerpScan points).2 < points.length := by omega
    have hstep : douglasPeucker points tol
        = (douglasPeucker (points.take ((maxPerpScan points).2 + 1)) tol).dropLast
          ++ douglasPeucker (points.drop (maxPerpScan points).2) tol := by
      rw [douglasPeucker, dif_neg h2, dif_pos ⟨hmt, hm1, hm2⟩]
    have hspec := maxPerpScan_spec points
    rcases hspec with ⟨heq, _⟩ | ⟨_, _, hv0, hfv, hfle, hflt⟩
    · rw [heq] at hm1; simp at hm1
    set pos0 := (maxPerpScan points).2 with hpos0
    set v := (maxPerpScan points).1 with hv
    set x0 : Point2D := points.getD pos0 default with hx0
    set L := douglasPeucker (points.take (pos0 + 1)) tol with hLdef
    set R := douglasPeucker (points.drop pos0) tol with hRdef
    have htake2 : 2 ≤ (points.take (pos0 + 1)).length := by
      simp only [List.length_take]; omega
    have hdrop2 : 2 ≤ (points.drop pos0).length := by
      simp only [List.length_drop]; omega
    have hLlen : 2 ≤ L.length := douglasPeucker_length2 _ tol htake2
    have hRlen : 2 ≤ R.length := douglasPeucker_length2 _ tol hdrop2
    -- the split value at the seam
    have htakeeq : points.take (pos0 + 1) = points.take pos0 ++ [x0] := by
      rw [List.take_succ, List.getElem?_eq_getElem hmlt]
      simp only [Option.toList_some, hx0, getD_eq_getElem hmlt]
    have hLlast : L.getLast? = some x0 := by
      rw [hLdef, douglasPeucker_getLast? _ tol htake2, htakeeq, List.getLast?_concat]
    have hRhead : R.head? = some x0 := by
      rw [hRdef, douglasPeucker_head? _ tol hdrop2, List.head?_drop,
        List.getElem?_eq_getElem hmlt]
      simp only [Option.some_inj, hx0, getD_eq_getElem hmlt]
    -- the deviation function relative to the global chord
    set g : Point2D → ℝ := fun p => perpendicularDistance p (points.getD 0 default)
      (points.getD (points.length - 1) default) with hg
    have hgAt : ∀ k (h : k < points.length), g points[k] = perpAt points k := by
      intro k h
      simp only [hg, perpAt, getD_eq_getElem h]
    -- (β) every value of R deviates at most v
    have hRle : ∀ x ∈ R, g x ≤ v := by
      intro x hx
      have hx2 : x ∈ points.drop pos0 := (douglasPeucker_sublist _ tol).mem hx
      obtain ⟨i, hi, hix⟩ := List.mem_iff_getElem.mp hx2
      rw [List.getElem_drop] at hix
      have hilen : pos0 + i < points.length := by
        simp only [List.length_drop] at hi; omega
      rcases eq_or_lt_of_le (Nat.succ_le_of_lt hilen) with hlast | hmid
      · -- the global last point deviates 0
        have : x = points.getD (points.length - 1) default := by
          rw [getD_eq_getElem (by omega)]
          rw [← hix]
          congr 1
          omega
        rw [this, hg]
        simp only [getD_eq_getElem (show points.length - 1 < points.length by omega)]
        rw [← getD_eq_getElem]
        rw [perpendicularDistance_right]
        · exact le_of_lt hv0
      · have hint : pos0 + i ≤ points.length - 2 := by omega
        rw [← hix, hgAt _ hilen]
        exact hfle _ (by omega) hint
    -- (α) every value of L.dropLast deviates strictly less than v
    have hLlt : ∀ x ∈ L.dropLast, g x < v := by
      intro x hx
      by_contra hge
      push_neg at hge
      -- x cannot occur before the split index
      have hnotbefore : x ∉ points.take pos0 := by
        intro hxtk
        obtain ⟨i, hi, hix⟩ := List.mem_iff_getElem.mp hxtk
        have hi' : i < pos0 := by simp only [List.length_take] at hi; omega
        rw [List.getElem_take] at hix
        rcases Nat.eq_zero_or_pos i with rfl | hipos
        · -- deviation of the first point is 0 < v
          rw [← hix, hgAt _ (by omega)] at hge
          have : perpAt points 0 = 0 := by
            simp only [perpAt]
            exact perpendicularDistance_left _ _
          rw [this] at hge
          exact absurd hv0 (not_lt.mpr hge)
        · rw [← hix, hgAt _ (by omega)] at hge
          exact absurd (hflt i hipos (by omega) hi') (not_lt.mpr hge)
      -- hence x is the split value
      have hxx0 : x = x0 := by
        have hxL : x ∈ L := (List.dropLast_sublist L).mem hx
        have hxtk : x ∈ points.take (pos0 + 1) := (douglasPeucker_sublist _ tol).mem hxL
        rw [htakeeq, List.mem_append] at hxtk
        rcases hxtk with h | h
        · exact absurd h hnotbefore
        · simpa using h
      -- count x in the prefix is 1, but L.dropLast ++ [x] forces at least 2
      have hcount1 : (points.take (pos0 + 1)).count x = 1 := by
        rw [htakeeq, List.count_append, List.count_eq_zero_of_not_mem hnotbefore, hxx0]
        simp
      have hcountL : L.count x ≤ 1 := by
        rw [← hcount1]
        exact (douglasPeucker_sublist _ tol).count_le x
      have hLsplit : L.dropLast ++ [x0] = L := List.dropLast_append_getLast? x0 hLlast
      have : 2 ≤ L.count x := by
        rw [← hLsplit, List.count_append, hxx0]
        have h1 : 0 < (L.dropLast).count x0 := by
          rw [← hxx0]
          exact List.count_pos_iff.mpr hx
        have h2 : List.count x0 [x0] = 1 := by simp
        omega
      omega
    -- the recombined list
    rw [hstep]
    set out := L.dropLast ++ R with hout
    set pos := L.length - 1 with hpos
    have houtlen : out.length = pos + R.length := by
      simp only [hout, List.length_append, List.length_dropLast, hpos]
    have hout3 : ¬ out.length ≤ 2 := by omega
    -- endpoints of out agree with those of points
    have houthead : out.head? = points.head? := by
      rw [← hstep]
      exact douglasPeucker_head? points tol (by omega)
    have houtlast : out.getLast? = points.getLast? := by
      rw [← hstep]
      exact douglasPeucker_getLast? points tol (by omega)
    have houtne : out ≠ [] := by
      intro h; rw [h] at houtlen; simp at houtlen; omega
    have hptsne : points ≠ [] := by
      intro h; rw [h] at hlen3; simp at hlen3
    have hout0 : out.getD 0 default = points.getD 0 default := by
      have h1 := head?_eq_getD houtne
      have h2 := head?_eq_getD hptsne
      rw [h1] at houthead
      rw [h2] at houthead
      exact Option.some_inj.mp houthead
    have houtl : out.getD (out.length - 1) default = points.getD (points.length - 1) default := by
      have h1 := getLast?_eq_getD houtne
      have h2 := getLast?_eq_getD hptsne
      rw [h1] at houtlast
      rw [h2] at houtlast
      exact Option.some_inj.mp houtlast
    have hgOut : ∀ i, perpAt out i = g (out.getD i default) := by
      intro i
      simp only [perpAt, hout0, houtl, hg]
    -- the value at the seam position
    have houtpos : out.getD pos default = x0 := by
      obtain ⟨r0, rt, hRt⟩ : ∃ r0 rt, R = r0 :: rt := by
        cases hR : R with
        | nil => rw [hR] at hRlen; simp at hRlen
        | cons a t => exact ⟨a, t, rfl⟩
      have hr0 : r0 = x0 := by rw [hRt] at hRhead; simpa using hRhead
      have hq : out[pos]? = some x0 := by
        rw [hout, List.getElem?_append_right (by simp only [List.length_dropLast]; omega)]
        rw [hRt, hr0]
        have hz : pos - L.dropLast.length = 0 := by simp only [List.length_dropLast]; omega
        rw [hz]
        simp
      rw [List.getD_eq_getElem?_getD, hq, Option.getD_some]
    -- scan of out
    have hscan : maxPerpScan out = (v, pos) := by
      apply maxPerpScan_eq_of out v pos (by omega) (by omega)
      · rw [hgOut, houtpos]
        exact hfv
      · exact hv0
      · intro i h1 h12
        rw [hgOut]
        rcases lt_trichotomy i pos with hlt2 | heq2 | hgt2
        · have hiL : out.getD i default ∈ L.dropLast := by
            have hilt : i < L.dropLast.length := by
              simp only [List.length_dropLast]; omega
            have hq : out[i]? = L.dropLast[i]? := by
              rw [hout, List.getElem?_append_left hilt]
            rw [List.getD_eq_getElem?_getD, hq, List.getElem?_eq_getElem hilt, Option.getD_some]
            exact List.getElem_mem _
          exact le_of_lt (hLlt _ hiL)
        · subst heq2
          rw [houtpos]
          exact le_of_eq hfv
        · have hiR : out.getD i default ∈ R := by
            have hge : L.dropLast.length ≤ i := by
              simp only [List.length_dropLast]; omega
            have hiRlt : i - L.dropLast.length < R.length := by
              simp only [List.length_dropLast]; omega
            have hq : out[i]? = R[i - L.dropLast.length]? := by
              rw [hout, List.getElem?_append_right hge]
            rw [List.getD_eq_getElem?_getD, hq, List.getElem?_eq_getElem hiRlt, Option.getD_some]
            exact List.getElem_mem _
          exact hRle _ hiR
      · intro i h1 h12 hlt2
        rw [hgOut]
        have hiL : out.getD i default ∈ L.dropLast := by
          have hilt : i < L.dropLast.length := by
            simp only [List.length_dropLast]; omega
          have hq : out[i]? = L.dropLast[i]? := by
            rw [hout, List.getElem?_append_left hilt]
          rw [List.getD_eq_getElem?_getD, hq, List.getElem?_eq_getElem hilt, Option.getD_some]
          exact List.getElem_mem _
        exact hLlt _ hiL
    -- compute dp out
    rw [douglasPeucker, dif_neg hout3, dif_pos (by rw [hscan]; exact ⟨hmt, by omega, by omega⟩)]
    rw [hscan]
    have htakeout : out.take (pos + 1) = L := by
      have h1 : out.take (pos + 1) = L.dropLast ++ R.take 1 := by
        rw [hout]
        rw [show pos + 1 = L.dropLast.length + 1 by rw [hpos, List.length_dropLast]]
        exact List.take_append ..
      obtain ⟨r0, rt, hRt⟩ : ∃ r0 rt, R = r0 :: rt := by
        cases hR : R with
        | nil => rw [hR] at hRlen; simp at hRlen
        | cons a t => exact ⟨a, t, rfl⟩
      have hr0 : r0 = x0 := by rw [hRt] at hRhead; simpa using hRhead
      rw [h1, hRt, hr0]
      simp only [List.take_succ_cons, List.take_zero]
      exact List.dropLast_append_getLast? x0 hLlast
    have hdropout : out.drop pos = R := by
      rw [hout, show pos = L.dropLast.length by rw [hpos, List.length_dropLast]]
      exact List.drop_left _ _
    rw [htakeout, hdropout, ih1, ih2]

/-! ## C6: short inputs and endpoint preservation -/

/-- `douglasPeucker` preserves the first point of every input. -/
lemma douglasPeucker_head?_all (points : List Point2D) (tol : ℝ) :
    (douglasPeucker points tol).head? = points.head? := by
  rcases le_or_lt points.length 2 with h | h
  · rw [douglasPeucker_short h]
  · exact douglasPeucker_head? points tol (by omega)

/-- `douglasPeucker` preserves the last point of every input. -/
lemma douglasPeucker_getLast?_all (points : List Point2D) (tol : ℝ) :
    (douglasPeucker points tol).getLast? = points.getLast? := by
  rcases le_or_lt points.length 2 with h | h
  · rw [douglasPeucker_short h]
  · exact douglasPeucker_getLast? points tol (by omega)

/-- Counterexample to C6 as stated: on the 2-point input `(0,0),(1,1)` the
path conditioner `processDrawingToWaypoints` does not return the input
unchanged — it returns the empty waypoint list. -/
theorem processDrawing_short_not_unchanged :
    ¬ ((processDrawingToWaypoints [⟨0, 0⟩, ⟨1, 1⟩] {}).map waypointCoords
        = [(⟨0, 0⟩ : Point2D), ⟨1, 1⟩]) := by
  intro h
  rw [processDrawingToWaypoints, if_pos (by norm_num)] at h
  simp at h

/-- C6 (amended): the path conditioner returns the **empty** waypoint list
for inputs with fewer than 3 points (attempting no processing); the
simplification and smoothing primitives themselves do return such inputs
unchanged; and `douglasPeucker` always keeps both the first and the last
point of every input path in its output. -/
theorem conditioner_short_inputs_and_dp_endpoints :
    (∀ (rawPoints : List Point2D) (options : ProcessingOptions),
        rawPoints.length < 3 → processDrawingToWaypoints rawPoints options = [])
    ∧ (∀ (points : List Point2D) (closed : Prop) (factor : ℝ),
        points.length < 3 → laplacianSmooth points closed factor = points)
    ∧ (∀ (points : List Point2D) (tol : ℝ),
        points.length < 3 → douglasPeucker points tol = points)
    ∧ (∀ (points : List Point2D) (tol : ℝ),
        (douglasPeucker points tol).head? = points.head?
          ∧ (douglasPeucker points tol).getLast? = points.getLast?) := by
  refine ⟨?_, ?_, ?_, ?_⟩
  · intro rawPoints options h
    rw [processDrawingToWaypoints, if_pos h]
  · intro points closed factor h
    rw [laplacianSmooth, if_pos h]
  · intro points tol h
    exact douglasPeucker_short (by omega)
  · intro points tol
    exact ⟨douglasPeucker_head?_all points tol, douglasPeucker_getLast?_all points tol⟩

/-- Witness for C6 (amended) at concrete inputs: a single-point drawing
yields `[]`, a 2-point list is left unchanged by smoothing and
simplification, and a concrete 3-point path keeps its endpoints. -/
theorem conditioner_short_inputs_witness :
    ([(⟨5, 5⟩ : Point2D)].length < 3 ∧ processDrawingToWaypoints [⟨5, 5⟩] {} = [])
    ∧ ([(⟨0, 0⟩ : Point2D), ⟨3, 4⟩].length < 3
        ∧ laplacianSmooth [⟨0, 0⟩, ⟨3, 4⟩] True 0.25 = [⟨0, 0⟩, ⟨3, 4⟩]
        ∧ douglasPeucker [⟨0, 0⟩, ⟨3, 4⟩] 3 = [⟨0, 0⟩, ⟨3, 4⟩])
    ∧ (douglasPeucker [⟨0, 0⟩, ⟨1, 7⟩, ⟨2, 0⟩] 3).head? = some ⟨0, 0⟩
    ∧ (douglasPeucker [⟨0, 0⟩, ⟨1, 7⟩, ⟨2, 0⟩] 3).getLast? = some ⟨2, 0⟩ :=
  ⟨⟨by norm_num, conditioner_short_inputs_and_dp_endpoints.1 _ {} (by norm_num)⟩,
   ⟨by norm_num, conditioner_short_inputs_and_dp_endpoints.2.1 _ True 0.25 (by norm_num),
    conditioner_short_inputs_and_dp_endpoints.2.2.1 _ 3 (by norm_num)⟩,
   (conditioner_short_inputs_and_dp_endpoints.2.2.2 [⟨0, 0⟩, ⟨1, 7⟩, ⟨2, 0⟩] 3).1,
   (conditioner_short_inputs_and_dp_endpoints.2.2.2 [⟨0, 0⟩, ⟨1, 7⟩, ⟨2, 0⟩] 3).2⟩


/-! ## Metric facts about `distance`, via the complex plane -/

/-- Coordinates as a complex number. -/
def toC (p : Point2D) : ℂ := ⟨p.x, p.z⟩

lemma distance_toC (p q : Point2D) : distance p q = Complex.abs (toC q - toC p) := by
  rw [distance, Complex.abs_apply, Complex.normSq_apply]
  simp only [toC, Complex.sub_re, Complex.sub_im]

lemma distance_comm (p q : Point2D) : distance p q = distance q p := by
  rw [distance_toC, distance_toC]
  rw [← AbsoluteValue.map_neg Complex.abs, neg_sub]

lemma distance_triangle (p q r : Point2D) :
    distance p r ≤ distance p q + distance q r := by
  rw [distance_toC, distance_toC, distance_toC]
  have h := Complex.abs.sub_le (toC r) (toC q) (toC p)
  calc Complex.abs (toC r - toC p)
      ≤ Complex.abs (toC r - toC q) + Complex.abs (toC q - toC p) := h
    _ = Complex.abs (toC q - toC p) + Complex.abs (toC r - toC q) := by ring

lemma distance_eq_zero_iff {p q : Point2D} : distance p q = 0 ↔ p = q := by
  rw [distance_toC, map_eq_zero, sub_eq_zero]
  constructor
  · intro h
    cases p; cases q
    simpa [toC, Complex.ext_iff] using h.symm
  · rintro rfl; rfl

/-- The interpolated point used by `interpAux`. -/
def lerpP (p q : Point2D) (t : ℝ) : Point2D :=
  ⟨p.x + t * (q.x - p.x), p.z + t * (q.z - p.z)⟩

lemma toC_lerpP (p q : Point2D) (t : ℝ) :
    toC (lerpP p q t) = toC p + (t : ℂ) * (toC q - toC p) := by
  simp [toC, lerpP, Complex.ext_iff]

lemma lerpP_zero (p q : Point2D) : lerpP p q 0 = p := by
  simp [lerpP, point_eta]

lemma lerpP_one (p q : Point2D) : lerpP p q 1 = q := by
  cases p; cases q; simp [lerpP]

lemma distance_lerpP (p q : Point2D) (t t' : ℝ) :
    distance (lerpP p q t) (lerpP p q t') = |t' - t| * distance p q := by
  rw [distance_toC, distance_toC, toC_lerpP, toC_lerpP]
  have : toC p + (t' : ℂ) * (toC q - toC p) - (toC p + (t : ℂ) * (toC q - toC p))
      = ((t' - t : ℝ) : ℂ) * (toC q - toC p) := by
    push_cast
    ring
  rw [this, map_mul, Complex.abs_ofReal]

lemma interpAux_cons (p1 p2 : Point2D) (rest : List (Point2D × Point2D)) (target : ℝ)
    (fallback : Point2D) :
    interpAux ((p1, p2) :: rest) target fallback
      = if target ≤ distance p1 p2 then lerpP p1 p2 (target / distance p1 p2)
        else interpAux rest (target - distance p1 p2) fallback := rfl


/-- A list of segments forming a connected walk from `a` to `c`: each
segment starts where the previous one ended. -/
inductive Chain : Point2D → List (Point2D × Point2D) → Point2D → Prop
  | nil (a : Point2D) : Chain a [] a
  | cons (a b c : Point2D) (l : List (Point2D × Point2D)) :
      Chain b l c → Chain a ((a, b) :: l) c

/-- Total length of a segment-pair walk. -/
def walkLen (l : List (Point2D × Point2D)) : ℝ :=
  (l.map fun pq => distance pq.1 pq.2).sum

lemma walkLen_nonneg (l : List (Point2D × Point2D)) : 0 ≤ walkLen l := by
  refine List.sum_nonneg ?_
  intro x hx
  obtain ⟨pq, _, rfl⟩ := List.mem_map.mp hx
  exact distance_nonneg _ _

/-- A walk of total length zero does not move. -/
lemma Chain.eq_of_walkLen_zero {a c : Point2D} {l : List (Point2D × Point2D)}
    (h : Chain a l c) (hw : walkLen l = 0) : c = a := by
  induction h with
  | nil a => rfl
  | cons a b c l hch ih =>
    have hsum : distance a b + walkLen l = 0 := by
      simpa [walkLen] using hw
    have h1 : distance a b = 0 := by
      have := walkLen_nonneg l
      have := distance_nonneg a b
      linarith
    have h2 : walkLen l = 0 := by linarith [distance_nonneg a b, walkLen_nonneg l]
    rw [ih h2, ← distance_eq_zero_iff.mp h1]

/-- Walking distance `0` lands on the start of the chain. -/
lemma Chain.interpAux_zero {a c : Point2D} {l : List (Point2D × Point2D)}
    (h : Chain a l c) : interpAux l 0 c = a := by
  cases h with
  | nil => rfl
  | cons a b c l hch =>
    rw [interpAux_cons, if_pos (distance_nonneg a b), zero_div, lerpP_zero]

/-- Walking at least the total length lands on the end of the chain. -/
lemma Chain.interpAux_ge {a c : Point2D} {l : List (Point2D × Point2D)}
    (h : Chain a l c) : ∀ d, walkLen l ≤ d → interpAux l d c = c := by
  induction h with
  | nil a => intro d _; rfl
  | cons a b c l hch ih =>
    intro d hd
    have hw : walkLen ((a, b) :: l) = distance a b + walkLen l := by simp [walkLen]
    rw [interpAux_cons]
    split
    · next hle =>
      -- the target is caught inside the first segment, which forces the rest
      -- of the walk to have length zero and the target to be the full length
      have hW0 : walkLen l = 0 := by
        rw [hw] at hd
        have := walkLen_nonneg l
        linarith
      have hcb : c = b := hch.eq_of_walkLen_zero hW0
      have hdab : d = distance a b := by
        rw [hw, hW0, add_zero] at hd
        linarith
      rcases eq_or_lt_of_le (distance_nonneg a b) with hz | hpos
      · -- zero-length segment: the interpolation parameter is 0/0 = 0
        rw [hdab, ← hz, zero_div, lerpP_zero, hcb]
        exact distance_eq_zero_iff.mp hz.symm
      · rw [hdab, div_self (ne_of_gt hpos), lerpP_one, hcb]
    · next hgt =>
      refine ih (d - distance a b) ?_
      rw [hw] at hd
      linarith


/-- Walking a connected chain is 1-Lipschitz in the walked distance: the
straight-line distance between two walk positions is at most the difference
of the walked lengths. -/
lemma Chain.interpAux_lipschitz {a c : Point2D} {l : List (Point2D × Point2D)}
    (h : Chain a l c) : ∀ d1 d2, 0 ≤ d1 → d1 ≤ d2 →
    distance (interpAux l d1 c) (interpAux l d2 c) ≤ d2 - d1 := by
  induction h with
  | nil a =>
    intro d1 d2 h1 h12
    simpa [interpAux, distance_self] using by linarith
  | cons a b c l hch ih =>
    intro d1 d2 h1 h12
    have hs := distance_nonneg a b
    rw [interpAux_cons, interpAux_cons]
    by_cases h2s : d2 ≤ distance a b
    · rw [if_pos (le_trans h12 h2s), if_pos h2s]
      rcases eq_or_lt_of_le hs with hz | hpos
      · have e2 : d2 = 0 := by linarith
        have e1 : d1 = 0 := by linarith
        rw [e1, e2]
        simp [distance_self]
      · rw [distance_lerpP]
        have habs : |d2 / distance a b - d1 / distance a b|
            = (d2 - d1) / distance a b := by
          rw [div_sub_div_same, abs_of_nonneg (div_nonneg (by linarith) hs)]
        rw [habs, div_mul_cancel₀ _ (ne_of_gt hpos)]
    · push_neg at h2s
      rw [if_neg (not_le.mpr h2s)]
      have hrest : distance b (interpAux l (d2 - distance a b) c)
          ≤ d2 - distance a b := by
        have key := ih 0 (d2 - distance a b) le_rfl (by linarith)
        rw [hch.interpAux_zero] at key
        simpa using key
      by_cases h1s : d1 ≤ distance a b
      · rw [if_pos h1s]
        have hb : distance (lerpP a b (d1 / distance a b)) b ≤ distance a b - d1 := by
          rcases eq_or_lt_of_le hs with hz | hpos
          · have e1 : d1 = 0 := by linarith
            rw [e1, zero_div, lerpP_zero]
            simp
          · have hd := distance_lerpP a b (d1 / distance a b) 1
            rw [lerpP_one] at hd
            rw [hd, abs_of_nonneg (by rw [le_sub_iff_add_le, zero_add, div_le_one hpos]; exact h1s)]
            rw [sub_mul, one_mul, div_mul_cancel₀ _ (ne_of_gt hpos)]
        calc distance (lerpP a b (d1 / distance a b)) (interpAux l (d2 - distance a b) c)
            ≤ distance (lerpP a b (d1 / distance a b)) b
              + distance b (interpAux l (d2 - distance a b) c) := distance_triangle _ _ _
          _ ≤ (distance a b - d1) + (d2 - distance a b) := add_le_add hb hrest
          _ = d2 - d1 := by ring
      · push_neg at h1s
        rw [if_neg (not_le.mpr h1s)]
        have key := ih (d1 - distance a b) (d2 - distance a b) (by linarith) (by linarith)
        calc distance (interpAux l (d1 - distance a b) c) (interpAux l (d2 - distance a b) c)
            ≤ (d2 - distance a b) - (d1 - distance a b) := key
          _ = d2 - d1 := by ring


lemma calculatePathLength_nonneg (points : List Point2D) (c : Prop) :
    0 ≤ calculatePathLength points c := by
  rw [calculatePathLength]
  split
  · exact le_rfl
  · refine add_nonneg (List.sum_nonneg ?_) ?_
    · intro x hx
      obtain ⟨i, _, rfl⟩ := List.mem_map.mp hx
      exact distance_nonneg _ _
    · split
      · exact distance_nonneg _ _
      · exact le_rfl

/-- The segment walk of a closed path is a connected chain from the first
point back to the first point. -/
lemma chain_segPairs_aux (points : List Point2D) :
    ∀ (cnt j : ℕ), j + cnt = points.length →
      Chain (points.getD (j % points.length) default)
        ((List.range' j cnt).map fun i =>
          (points.getD i default, points.getD ((i + 1) % points.length) default))
        (points.getD 0 default) := by
  intro cnt
  induction cnt with
  | zero =>
    intro j hj
    have hj' : j = points.length := by omega
    subst hj'
    rw [Nat.mod_self]
    exact Chain.nil _
  | succ cnt ih =>
    intro j hj
    have hjlt : j < points.length := by omega
    have hjm : j % points.length = j := Nat.mod_eq_of_lt hjlt
    rw [List.range'_succ, List.map_cons, hjm]
    exact Chain.cons _ _ _ _ (ih (j + 1) (by omega))

lemma chain_segPairs (points : List Point2D) :
    Chain (points.getD 0 default) (segPairs points True) (points.getD 0 default) := by
  have h := chain_segPairs_aux points points.length 0 (by omega)
  rw [Nat.zero_mod] at h
  rw [segPairs, if_pos trivial, List.range_eq_range']
  exact h

lemma walkLen_segPairs (points : List Point2D) (h3 : 3 ≤ points.length) :
    walkLen (segPairs points True) = calculatePathLength points True := by
  rw [segPairs, if_pos trivial, calculatePathLength, if_neg (by omega),
    if_pos ⟨trivial, by omega⟩]
  rw [walkLen, List.map_map]
  have hsplit : List.range points.length
      = List.range (points.length - 1) ++ [points.length - 1] := by
    conv_lhs => rw [show points.length = (points.length - 1) + 1 by omega]
    rw [List.range_succ]
  rw [hsplit, List.map_append, List.sum_append]
  simp only [List.map_cons, List.map_nil, List.sum_cons, List.sum_nil, add_zero]
  congr 1
  · apply congrArg
    apply List.map_congr_left
    intro i hi
    rw [List.mem_range] at hi
    have hmod : (i + 1) % points.length = i + 1 := Nat.mod_eq_of_lt (by omega)
    simp [Function.comp, hmod]
  · have hmod : (points.length - 1 + 1) % points.length = 0 := by
      rw [show points.length - 1 + 1 = points.length by omega, Nat.mod_self]
    simp [Function.comp, hmod]

lemma getD_range_map (f : ℕ → Point2D) (n i : ℕ) (hi : i < n) :
    ((List.range n).map f).getD i default = f i := by
  rw [List.getD_eq_getElem?_getD, List.getElem?_map, List.getElem?_range hi]
  rfl

/-- The resampled perimeter never exceeds the input perimeter: each chord
spans one arc step, and the closing chord spans the remaining arc. -/
lemma resamplePath_perimeter_le (points : List Point2D) (targetSpacing : ℝ)
    (h3 : 3 ≤ points.length) :
    calculatePathLength (resamplePath points targetSpacing True) True
      ≤ calculatePathLength points True := by
  have hL0 : 0 ≤ calculatePathLength points True := calculatePathLength_nonneg points True
  set L := calculatePathLength points True with hLdef
  set N := max 8 (jround (L / targetSpacing)).toNat with hNdef
  have hN8 : 8 ≤ N := le_max_left _ _
  have hNpos : (0 : ℝ) < (N : ℝ) := by exact_mod_cast by omega
  set smp : ℕ → Point2D :=
    fun i : ℕ => interpolateAlongPath points ((i : ℝ) / (N : ℝ) * L) True with hsmpdef
  have hres : resamplePath points targetSpacing True = (List.range N).map smp := rfl
  have hch := chain_segPairs points
  have hW : walkLen (segPairs points True) = L := walkLen_segPairs points h3
  have hlip := hch.interpAux_lipschitz
  have hsample : ∀ i j : ℕ, i ≤ j →
      distance (smp i) (smp j) ≤ ((j : ℝ) - i) / N * L := by
    intro i j hij
    have hijR : (i : ℝ) ≤ j := by exact_mod_cast hij
    have h1 : (0 : ℝ) ≤ (i : ℝ) / N * L := by positivity
    have h2 : (i : ℝ) / N * L ≤ (j : ℝ) / N * L :=
      mul_le_mul_of_nonneg_right ((div_le_div_iff_of_pos_right hNpos).mpr hijR) hL0
    have key := hlip ((i : ℝ) / N * L) ((j : ℝ) / N * L) h1 h2
    calc distance (smp i) (smp j) ≤ (j : ℝ) / N * L - (i : ℝ) / N * L := key
      _ = ((j : ℝ) - i) / N * L := by ring
  have hsmp0 : smp 0 = points.getD 0 default := by
    have h0 : ((0 : ℕ) : ℝ) / N * L = 0 := by simp
    show interpolateAlongPath points (((0 : ℕ) : ℝ) / N * L) True = points.getD 0 default
    rw [h0]
    exact hch.interpAux_zero
  have hclose : distance (smp (N - 1)) (points.getD 0 default)
      ≤ L - (((N - 1 : ℕ) : ℝ)) / N * L := by
    have hle : ((N - 1 : ℕ) : ℝ) ≤ (N : ℝ) := by exact_mod_cast Nat.sub_le N 1
    have hd : ((N - 1 : ℕ) : ℝ) / N * L ≤ L := by
      calc ((N - 1 : ℕ) : ℝ) / N * L
          ≤ (N : ℝ) / N * L :=
            mul_le_mul_of_nonneg_right ((div_le_div_iff_of_pos_right hNpos).mpr hle) hL0
        _ = L := by field_simp
    have hge : interpAux (segPairs points True) L (points.getD 0 default)
        = points.getD 0 default := hch.interpAux_ge L (le_of_eq hW)
    have h1 : (0 : ℝ) ≤ ((N - 1 : ℕ) : ℝ) / N * L := by positivity
    have key := hlip (((N - 1 : ℕ) : ℝ) / N * L) L h1 hd
    rw [hge] at key
    exact key
  rw [hres, calculatePathLength]
  rw [if_neg (by simp only [List.length_map, List.length_range]; omega)]
  rw [if_pos ⟨trivial, by simp only [List.length_map, List.length_range]; omega⟩]
  simp only [List.length_map, List.length_range]
  have hgetD : ∀ i, i < N → ((List.range N).map smp).getD i default = smp i :=
    fun i hi => getD_range_map smp N i hi
  have hsum_le : ((List.range (N - 1)).map fun i =>
      distance (((List.range N).map smp).getD i default)
        (((List.range N).map smp).getD (i + 1) default)).sum
      ≤ ((N - 1 : ℕ) : ℝ) * (1 / N * L) := by
    have hptwise : ∀ i ∈ List.range (N - 1),
        distance (((List.range N).map smp).getD i default)
          (((List.range N).map smp).getD (i + 1) default) ≤ 1 / N * L := by
      intro i hi
      rw [List.mem_range] at hi
      rw [hgetD i (by omega), hgetD (i + 1) (by omega)]
      have h := hsample i (i + 1) (by omega)
      have : (((i + 1 : ℕ) : ℝ) - (i : ℕ)) / N * L = 1 / N * L := by push_cast; ring
      rw [this] at h
      exact h
    calc ((List.range (N - 1)).map fun i =>
        distance (((List.range N).map smp).getD i default)
          (((List.range N).map smp).getD (i + 1) default)).sum
        ≤ ((List.range (N - 1)).map fun _ => 1 / N * L).sum := List.sum_le_sum hptwise
      _ = ((N - 1 : ℕ) : ℝ) * (1 / N * L) := by
          rw [List.map_const', List.sum_replicate, List.length_range, nsmul_eq_mul]
  have hcloseterm : distance (((List.range N).map smp).getD (N - 1) default)
      (((List.range N).map smp).getD 0 default)
      ≤ L - ((N - 1 : ℕ) : ℝ) / N * L := by
    rw [hgetD (N - 1) (by omega), hgetD 0 (by omega), hsmp0]
    exact hclose
  have hcast : ((N - 1 : ℕ) : ℝ) * (1 / N * L) = ((N - 1 : ℕ) : ℝ) / N * L := by ring
  linarith [hsum_le, hcloseterm]



/-- The closed 3-point test path `(0,0),(1,0),(0,0)`: perimeter `2`. -/
def tinyPath : List Point2D := [⟨0, 0⟩, ⟨1, 0⟩, ⟨0, 0⟩]

lemma tinyPath_length : calculatePathLength tinyPath True = 2 := by
  have d1 : distance (⟨0, 0⟩ : Point2D) ⟨1, 0⟩ = 1 := distance_eval (by norm_num) (by norm_num)
  have d2 : distance (⟨1, 0⟩ : Point2D) ⟨0, 0⟩ = 1 := distance_eval (by norm_num) (by norm_num)
  have d3 : distance (⟨0, 0⟩ : Point2D) ⟨0, 0⟩ = 0 := distance_self _
  simp only [tinyPath, calculatePathLength, List.length_cons, List.length_nil]
  norm_num [List.range_succ, List.getD, d1, d2, d3]

/-- The alternating 4-point path `(0,0),(0,6),(0,0),(0,6)`: perimeter `24`. -/
def zigzag : List Point2D := [⟨0, 0⟩, ⟨0, 6⟩, ⟨0, 0⟩, ⟨0, 6⟩]

lemma zigzag_dists :
    distance (⟨0, 0⟩ : Point2D) ⟨0, 6⟩ = 6 ∧ distance (⟨0, 6⟩ : Point2D) ⟨0, 0⟩ = 6 :=
  ⟨distance_eval (by norm_num) (by norm_num), distance_eval (by norm_num) (by norm_num)⟩

lemma zigzag_length : calculatePathLength zigzag True = 24 := by
  obtain ⟨d1, d2⟩ := zigzag_dists
  simp only [zigzag, calculatePathLength, List.length_cons, List.length_nil]
  norm_num [List.range_succ, List.getD, d1, d2]

lemma zigzag_segPairs :
    segPairs zigzag True
      = [(⟨0, 0⟩, ⟨0, 6⟩), (⟨0, 6⟩, ⟨0, 0⟩), (⟨0, 0⟩, ⟨0, 6⟩), (⟨0, 6⟩, ⟨0, 0⟩)] := by
  simp only [segPairs, zigzag, List.length_cons, List.length_nil, if_pos trivial]
  norm_num [List.range_succ, List.getD]

lemma zigzag_interp (d : ℝ) :
    interpolateAlongPath zigzag d True
      = interpAux [((⟨0, 0⟩ : Point2D), (⟨0, 6⟩ : Point2D)), (⟨0, 6⟩, ⟨0, 0⟩),
          (⟨0, 0⟩, ⟨0, 6⟩), (⟨0, 6⟩, ⟨0, 0⟩)] d ⟨0, 0⟩ := by
  rw [interpolateAlongPath, zigzag_segPairs]
  rfl

lemma zigzag_resample :
    resamplePath zigzag (8 / 3) True
      = [⟨0, 0⟩, ⟨0, 8/3⟩, ⟨0, 16/3⟩, ⟨0, 4⟩, ⟨0, 4/3⟩, ⟨0, 4/3⟩, ⟨0, 4⟩, ⟨0, 16/3⟩, ⟨0, 8/3⟩] := by
  obtain ⟨d1, d2⟩ := zigzag_dists
  have hN : max 8 (jround (calculatePathLength zigzag True / (8 / 3))).toNat = 9 := by
    rw [zigzag_length]
    norm_num [jround]
    rfl
  show (List.range (max 8 (jround (calculatePathLength zigzag True / (8 / 3))).toNat)).map _ = _
  rw [hN, show List.range 9 = [0, 1, 2, 3, 4, 5, 6, 7, 8] from rfl]
  simp only [List.map_cons, List.map_nil]
  rw [zigzag_length]
  norm_num [zigzag_interp, interpAux_cons, d1, d2, lerpP, Point2D.mk.injEq]

lemma zigzag_resample_length :
    calculatePathLength (resamplePath zigzag (8 / 3) True) True = 56 / 3 := by
  rw [zigzag_resample]
  have e1 : distance (⟨0, 0⟩ : Point2D) ⟨0, 8/3⟩ = 8/3 := distance_eval (by norm_num) (by norm_num)
  have e2 : distance (⟨0, 8/3⟩ : Point2D) ⟨0, 16/3⟩ = 8/3 := distance_eval (by norm_num) (by norm_num)
  have e3 : distance (⟨0, 16/3⟩ : Point2D) ⟨0, 4⟩ = 4/3 := distance_eval (by norm_num) (by norm_num)
  have e4 : distance (⟨0, 4⟩ : Point2D) ⟨0, 4/3⟩ = 8/3 := distance_eval (by norm_num) (by norm_num)
  have e5 : distance (⟨0, 4/3⟩ : Point2D) ⟨0, 4/3⟩ = 0 := distance_self _
  have e6 : distance (⟨0, 4/3⟩ : Point2D) ⟨0, 4⟩ = 8/3 := distance_eval (by norm_num) (by norm_num)
  have e7 : distance (⟨0, 4⟩ : Point2D) ⟨0, 16/3⟩ = 4/3 := distance_eval (by norm_num) (by norm_num)
  have e8 : distance (⟨0, 16/3⟩ : Point2D) ⟨0, 8/3⟩ = 8/3 := distance_eval (by norm_num) (by norm_num)
  have e9 : distance (⟨0, 8/3⟩ : Point2D) ⟨0, 0⟩ = 8/3 := distance_eval (by norm_num) (by norm_num)
  simp only [calculatePathLength, List.length_cons, List.length_nil]
  norm_num [List.range_succ, List.getD, e1, e2, e3, e4, e5, e6, e7, e8, e9]

/-- Counterexample to C3 as stated.  First, on the 3-point path of perimeter
`2` with spacing `1`, the output count `8` differs from
`round(perimeter/spacing) = 2` by more than one (the code clamps the count
below at 8).  Second, on the alternating 4-point path of perimeter `24` with
spacing `8/3` (one resample step is `24/9 = 8/3`, which also equals the
spacing), the resampled perimeter is `56/3`, differing from the input's `24`
by `16/3` — two full resample steps. -/
theorem resamplePath_claim_counterexample :
    (¬ (((resamplePath tinyPath 1 True).length : ℤ)
          - jround (calculatePathLength tinyPath True / 1) ≤ 1
        ∧ jround (calculatePathLength tinyPath True / 1)
          - ((resamplePath tinyPath 1 True).length : ℤ) ≤ 1))
    ∧ calculatePathLength zigzag True / ((resamplePath zigzag (8 / 3) True).length : ℝ) = 8 / 3
    ∧ ¬ (|calculatePathLength (resamplePath zigzag (8 / 3) True) True
          - calculatePathLength zigzag True| < 8 / 3) := by
  have hlen9 : (resamplePath zigzag (8 / 3) True).length = 9 := by
    rw [zigzag_resample]
    rfl
  refine ⟨?_, ?_, ?_⟩
  · rw [resamplePath_length, tinyPath_length]
    intro h
    have h1 : jround ((2 : ℝ) / 1) = 2 := by norm_num [jround]
    rw [h1] at h
    norm_num at h
  · rw [hlen9, zigzag_length]
    norm_num
  · rw [zigzag_resample_length, zigzag_length]
    rw [show (56 : ℝ) / 3 - 24 = -(16 / 3) by norm_num, abs_neg,
      abs_of_nonneg (by norm_num : (0 : ℝ) ≤ 16 / 3)]
    norm_num

/-- C3 (amended): `resamplePath` on a closed path returns exactly
`max(8, round(perimeter/spacing))` points — within one of
`round(perimeter/spacing)` only when that rounding is at least 7 — and (for
inputs with at least 3 points) the resampled perimeter never exceeds the
input perimeter, though it can fall short of it by one resample step or
more. -/
theorem resamplePath_behaviour (points : List Point2D) (targetSpacing : ℝ)
    (h3 : 3 ≤ points.length) (hs : 0 < targetSpacing) :
    (resamplePath points targetSpacing True).length
        = max 8 (jround (calculatePathLength points True / targetSpacing)).toNat
    ∧ calculatePathLength (resamplePath points targetSpacing True) True
        ≤ calculatePathLength points True :=
  ⟨resamplePath_length points targetSpacing True,
   resamplePath_perimeter_le points targetSpacing h3⟩

/-- Witness for C3 (amended) at the concrete 3-point path with spacing 1. -/
theorem resamplePath_behaviour_witness :
    3 ≤ tinyPath.length ∧ (0 : ℝ) < 1
    ∧ ((resamplePath tinyPath 1 True).length
          = max 8 (jround (calculatePathLength tinyPath True / 1)).toNat
        ∧ calculatePathLength (resamplePath tinyPath 1 True) True
          ≤ calculatePathLength tinyPath True) :=
  ⟨by norm_num [tinyPath], by norm_num, resamplePath_behaviour tinyPath 1 (by norm_num [tinyPath]) (by norm_num)⟩


/-! ## Trigonometric values at multiples of `π/12`, for the oval track -/

lemma sqrt6_eq : Real.sqrt 6 = Real.sqrt 3 * Real.sqrt 2 := by
  rw [show (6 : ℝ) = 3 * 2 by norm_num, Real.sqrt_mul (by norm_num)]

lemma sin_pi12 : Real.sin (π / 12) = (Real.sqrt 6 - Real.sqrt 2) / 4 := by
  rw [show π / 12 = π / 3 - π / 4 by ring, Real.sin_sub, Real.sin_pi_div_three,
    Real.cos_pi_div_three, Real.sin_pi_div_four, Real.cos_pi_div_four, sqrt6_eq]
  ring

lemma cos_pi12 : Real.cos (π / 12) = (Real.sqrt 6 + Real.sqrt 2) / 4 := by
  rw [show π / 12 = π / 3 - π / 4 by ring, Real.cos_sub, Real.sin_pi_div_three,
    Real.cos_pi_div_three, Real.sin_pi_div_four, Real.cos_pi_div_four, sqrt6_eq]
  ring

lemma sin_pi_add' (x : ℝ) : Real.sin (π + x) = -Real.sin x := by
  rw [Real.sin_add, Real.sin_pi, Real.cos_pi]
  ring

lemma sv2 : Real.sin ((2:ℝ) * (π / 12)) = 1 / 2 := by
  rw [show (2:ℝ) * (π / 12) = π / 6 by ring, Real.sin_pi_div_six]

lemma sv3 : Real.sin ((3:ℝ) * (π / 12)) = Real.sqrt 2 / 2 := by
  rw [show (3:ℝ) * (π / 12) = π / 4 by ring, Real.sin_pi_div_four]

lemma sv4 : Real.sin ((4:ℝ) * (π / 12)) = Real.sqrt 3 / 2 := by
  rw [show (4:ℝ) * (π / 12) = π / 3 by ring, Real.sin_pi_div_three]

lemma sv5 : Real.sin ((5:ℝ) * (π / 12)) = (Real.sqrt 6 + Real.sqrt 2) / 4 := by
  rw [show (5:ℝ) * (π / 12) = π / 2 - π / 12 by ring, Real.sin_pi_div_two_sub, cos_pi12]

lemma sv6 : Real.sin ((6:ℝ) * (π / 12)) = 1 := by
  rw [show (6:ℝ) * (π / 12) = π / 2 by ring, Real.sin_pi_div_two]

lemma sv7 : Real.sin ((7:ℝ) * (π / 12)) = (Real.sqrt 6 + Real.sqrt 2) / 4 := by
  rw [show (7:ℝ) * (π / 12) = π - (5:ℝ) * (π / 12) by ring, Real.sin_pi_sub, sv5]

lemma sv8 : Real.sin ((8:ℝ) * (π / 12)) = Real.sqrt 3 / 2 := by
  rw [show (8:ℝ) * (π / 12) = π - (4:ℝ) * (π / 12) by ring, Real.sin_pi_sub, sv4]

lemma sv9 : Real.sin ((9:ℝ) * (π / 12)) = Real.sqrt 2 / 2 := by
  rw [show (9:ℝ) * (π / 12) = π - (3:ℝ) * (π / 12) by ring, Real.sin_pi_sub, sv3]

lemma sv10 : Real.sin ((10:ℝ) * (π / 12)) = 1 / 2 := by
  rw [show (10:ℝ) * (π / 12) = π - (2:ℝ) * (π / 12) by ring, Real.sin_pi_sub, sv2]

lemma sv11 : Real.sin ((11:ℝ) * (π / 12)) = (Real.sqrt 6 - Real.sqrt 2) / 4 := by
  rw [show (11:ℝ) * (π / 12) = π - π / 12 by ring, Real.sin_pi_sub, sin_pi12]

lemma sv12 : Real.sin ((12:ℝ) * (π / 12)) = 0 := by
  rw [show (12:ℝ) * (π / 12) = π by ring, Real.sin_pi]

lemma sv13 : Real.sin ((13:ℝ) * (π / 12)) = -((Real.sqrt 6 - Real.sqrt 2) / 4) := by
  rw [show (13:ℝ) * (π / 12) = π + π / 12 by ring, sin_pi_add', sin_pi12]

lemma sv14 : Real.sin ((14:ℝ) * (π / 12)) = -(1 / 2) := by
  rw [show (14:ℝ) * (π / 12) = π + (2:ℝ) * (π / 12) by ring, sin_pi_add', sv2]

lemma sv15 : Real.sin ((15:ℝ) * (π / 12)) = -(Real.sqrt 2 / 2) := by
  rw [show (15:ℝ) * (π / 12) = π + (3:ℝ) * (π / 12) by ring, sin_pi_add', sv3]

lemma sv16 : Real.sin ((16:ℝ) * (π / 12)) = -(Real.sqrt 3 / 2) := by
  rw [show (16:ℝ) * (π / 12) = π + (4:ℝ) * (π / 12) by ring, sin_pi_add', sv4]

lemma sv17 : Real.sin ((17:ℝ) * (π / 12)) = -((Real.sqrt 6 + Real.sqrt 2) / 4) := by
  rw [show (17:ℝ) * (π / 12) = π + (5:ℝ) * (π / 12) by ring, sin_pi_add', sv5]

lemma sv18 : Real.sin ((18:ℝ) * (π / 12)) = -(1) := by
  rw [show (18:ℝ) * (π / 12) = π + (6:ℝ) * (π / 12) by ring, sin_pi_add', sv6]

lemma sv19 : Real.sin ((19:ℝ) * (π / 12)) = -((Real.sqrt 6 + Real.sqrt 2) / 4) := by
  rw [show (19:ℝ) * (π / 12) = π + (7:ℝ) * (π / 12) by ring, sin_pi_add', sv7]

lemma sv20 : Real.sin ((20:ℝ) * (π / 12)) = -(Real.sqrt 3 / 2) := by
  rw [show (20:ℝ) * (π / 12) = π + (8:ℝ) * (π / 12) by ring, sin_pi_add', sv8]

lemma sv21 : Real.sin ((21:ℝ) * (π / 12)) = -(Real.sqrt 2 / 2) := by
  rw [show (21:ℝ) * (π / 12) = π + (9:ℝ) * (π / 12) by ring, sin_pi_add', sv9]

lemma sv22 : Real.sin ((22:ℝ) * (π / 12)) = -(1 / 2) := by
  rw [show (22:ℝ) * (π / 12) = π + (10:ℝ) * (π / 12) by ring, sin_pi_add', sv10]

lemma sv23 : Real.sin ((23:ℝ) * (π / 12)) = -((Real.sqrt 6 - Real.sqrt 2) / 4) := by
  rw [show (23:ℝ) * (π / 12) = π + (11:ℝ) * (π / 12) by ring, sin_pi_add', sv11]



lemma sqrt2_lb : (1.41 : ℝ) ≤ Real.sqrt 2 := by
  rw [show (1.41 : ℝ) = Real.sqrt (1.41 ^ 2) by rw [Real.sqrt_sq (by norm_num)]]
  exact Real.sqrt_le_sqrt (by norm_num)

lemma sqrt2_ub : Real.sqrt 2 ≤ 1.42 := by
  rw [show (1.42 : ℝ) = Real.sqrt (1.42 ^ 2) by rw [Real.sqrt_sq (by norm_num)]]
  exact Real.sqrt_le_sqrt (by norm_num)

lemma sqrt3_lb : (1.73 : ℝ) ≤ Real.sqrt 3 := by
  rw [show (1.73 : ℝ) = Real.sqrt (1.73 ^ 2) by rw [Real.sqrt_sq (by norm_num)]]
  exact Real.sqrt_le_sqrt (by norm_num)

lemma sqrt3_ub : Real.sqrt 3 ≤ 1.74 := by
  rw [show (1.74 : ℝ) = Real.sqrt (1.74 ^ 2) by rw [Real.sqrt_sq (by norm_num)]]
  exact Real.sqrt_le_sqrt (by norm_num)

lemma sqrt6_lb : (2.44 : ℝ) ≤ Real.sqrt 6 := by
  rw [show (2.44 : ℝ) = Real.sqrt (2.44 ^ 2) by rw [Real.sqrt_sq (by norm_num)]]
  exact Real.sqrt_le_sqrt (by norm_num)

lemma sqrt6_ub : Real.sqrt 6 ≤ 2.45 := by
  rw [show (2.45 : ℝ) = Real.sqrt (2.45 ^ 2) by rw [Real.sqrt_sq (by norm_num)]]
  exact Real.sqrt_le_sqrt (by norm_num)

/-- Convexity of the 24-gon inscribed in the ellipse: going one more vertex step
never gains as much `sin` as the first step from zero. -/
lemma sin_step_pos (m : ℕ) (h2 : 2 ≤ m) (h22 : m ≤ 22) :
    0 < Real.sin (π / 12) + Real.sin ((m : ℝ) * (π / 12))
      - Real.sin (((m : ℝ) + 1) * (π / 12)) := by
  have b2l := sqrt2_lb
  have b2u := sqrt2_ub
  have b3l := sqrt3_lb
  have b3u := sqrt3_ub
  have b6l := sqrt6_lb
  have b6u := sqrt6_ub
  interval_cases m
  · rw [show ((((2:ℕ)) : ℝ)) * (π / 12) = (2:ℝ) * (π / 12) by norm_num,
      show ((((2:ℕ)) : ℝ) + 1) * (π / 12) = (3:ℝ) * (π / 12) by norm_num,
      sv2, sv3, sin_pi12]
    linarith
  · rw [show ((((3:ℕ)) : ℝ)) * (π / 12) = (3:ℝ) * (π / 12) by norm_num,
      show ((((3:ℕ)) : ℝ) + 1) * (π / 12) = (4:ℝ) * (π / 12) by norm_num,
      sv3, sv4, sin_pi12]
    linarith
  · rw [show ((((4:ℕ)) : ℝ)) * (π / 12) = (4:ℝ) * (π / 12) by norm_num,
      show ((((4:ℕ)) : ℝ) + 1) * (π / 12) = (5:ℝ) * (π / 12) by norm_num,
      sv4, sv5, sin_pi12]
    linarith
  · rw [show ((((5:ℕ)) : ℝ)) * (π / 12) = (5:ℝ) * (π / 12) by norm_num,
      show ((((5:ℕ)) : ℝ) + 1) * (π / 12) = (6:ℝ) * (π / 12) by norm_num,
      sv5, sv6, sin_pi12]
    linarith
  · rw [show ((((6:ℕ)) : ℝ)) * (π / 12) = (6:ℝ) * (π / 12) by norm_num,
      show ((((6:ℕ)) : ℝ) + 1) * (π / 12) = (7:ℝ) * (π / 12) by norm_num,
      sv6, sv7, sin_pi12]
    linarith
  · rw [show ((((7:ℕ)) : ℝ)) * (π / 12) = (7:ℝ) * (π / 12) by norm_num,
      show ((((7:ℕ)) : ℝ) + 1) * (π / 12) = (8:ℝ) * (π / 12) by norm_num,
      sv7, sv8, sin_pi12]
    linarith
  · rw [show ((((8:ℕ)) : ℝ)) * (π / 12) = (8:ℝ) * (π / 12) by norm_num,
      show ((((8:ℕ)) : ℝ) + 1) * (π / 12) = (9:ℝ) * (π / 12) by norm_num,
      sv8, sv9, sin_pi12]
    linarith
  · rw [show ((((9:ℕ)) : ℝ)) * (π / 12) = (9:ℝ) * (π / 12) by norm_num,
      show ((((9:ℕ)) : ℝ) + 1) * (π / 12) = (10:ℝ) * (π / 12) by norm_num,
      sv9, sv10, sin_pi12]
    linarith
  · rw [show ((((10:ℕ)) : ℝ)) * (π / 12) = (10:ℝ) * (π / 12) by norm_num,
      show ((((10:ℕ)) : ℝ) + 1) * (π / 12) = (11:ℝ) * (π / 12) by norm_num,
      sv10, sv11, sin_pi12]
    linarith
  · rw [show ((((11:ℕ)) : ℝ)) * (π / 12) = (11:ℝ) * (π / 12) by norm_num,
      show ((((11:ℕ)) : ℝ) + 1) * (π / 12) = (12:ℝ) * (π / 12) by norm_num,
      sv11, sv12, sin_pi12]
    linarith
  · rw [show ((((12:ℕ)) : ℝ)) * (π / 12) = (12:ℝ) * (π / 12) by norm_num,
      show ((((12:ℕ)) : ℝ) + 1) * (π / 12) = (13:ℝ) * (π / 12) by norm_num,
      sv12, sv13, sin_pi12]
    linarith
  · rw [show ((((13:ℕ)) : ℝ)) * (π / 12) = (13:ℝ) * (π / 12) by norm_num,
      show ((((13:ℕ)) : ℝ) + 1) * (π / 12) = (14:ℝ) * (π / 12) by norm_num,
      sv13, sv14, sin_pi12]
    linarith
  · rw [show ((((14:ℕ)) : ℝ)) * (π / 12) = (14:ℝ) * (π / 12) by norm_num,
      show ((((14:ℕ)) : ℝ) + 1) * (π / 12) = (15:ℝ) * (π / 12) by norm_num,
      sv14, sv15, sin_pi12]
    linarith
  · rw [show ((((15:ℕ)) : ℝ)) * (π / 12) = (15:ℝ) * (π / 12) by norm_num,
      show ((((15:ℕ)) : ℝ) + 1) * (π / 12) = (16:ℝ) * (π / 12) by norm_num,
      sv15, sv16, sin_pi12]
    linarith
  · rw [show ((((16:ℕ)) : ℝ)) * (π / 12) = (16:ℝ) * (π / 12) by norm_num,
      show ((((16:ℕ)) : ℝ) + 1) * (π / 12) = (17:ℝ) * (π / 12) by norm_num,
      sv16, sv17, sin_pi12]
    linarith
  · rw [show ((((17:ℕ)) : ℝ)) * (π / 12) = (17:ℝ) * (π / 12) by norm_num,
      show ((((17:ℕ)) : ℝ) + 1) * (π / 12) = (18:ℝ) * (π / 12) by norm_num,
      sv17, sv18, sin_pi12]
    linarith
  · rw [show ((((18:ℕ)) : ℝ)) * (π / 12) = (18:ℝ) * (π / 12) by norm_num,
      show ((((18:ℕ)) : ℝ) + 1) * (π / 12) = (19:ℝ) * (π / 12) by norm_num,
      sv18, sv19, sin_pi12]
    linarith
  · rw [show ((((19:ℕ)) : ℝ)) * (π / 12) = (19:ℝ) * (π / 12) by norm_num,
      show ((((19:ℕ)) : ℝ) + 1) * (π / 12) = (20:ℝ) * (π / 12) by norm_num,
      sv19, sv20, sin_pi12]
    linarith
  · rw [show ((((20:ℕ)) : ℝ)) * (π / 12) = (20:ℝ) * (π / 12) by norm_num,
      show ((((20:ℕ)) : ℝ) + 1) * (π / 12) = (21:ℝ) * (π / 12) by norm_num,
      sv20, sv21, sin_pi12]
    linarith
  · rw [show ((((21:ℕ)) : ℝ)) * (π / 12) = (21:ℝ) * (π / 12) by norm_num,
      show ((((21:ℕ)) : ℝ) + 1) * (π / 12) = (22:ℝ) * (π / 12) by norm_num,
      sv21, sv22, sin_pi12]
    linarith
  · rw [show ((((22:ℕ)) : ℝ)) * (π / 12) = (22:ℝ) * (π / 12) by norm_num,
      show ((((22:ℕ)) : ℝ) + 1) * (π / 12) = (23:ℝ) * (π / 12) by norm_num,
      sv22, sv23, sin_pi12]
    linarith


/-! ## The oval track of `generateOvalTrack 200 1.5` -/

/-- The 24 generated oval points for the default `worldSize = 200`,
`aspectRatio = 1.5`: radii `120` and `80`. -/
def ovalPts : List Point2D := ovalPoints 200 1.5

lemma ovalPts_length : ovalPts.length = 24 := by
  simp [ovalPts, ovalPoints]

lemma ovalPts_getD (k : ℕ) (hk : k < 24) :
    ovalPts.getD k default
      = ⟨Real.cos ((k : ℝ) * (π / 12)) * 120, Real.sin ((k : ℝ) * (π / 12)) * 80⟩ := by
  have h : ovalPts = (List.range 24).map fun (i : ℕ) =>
      Point2D.mk (Real.cos (((i : ℝ) / 24) * π * 2) * (200 * 0.4 * 1.5))
        (Real.sin (((i : ℝ) / 24) * π * 2) * (200 * 0.4)) := by
    simp only [ovalPts, ovalPoints, Nat.cast_ofNat]
  rw [h, getD_range_map _ 24 k hk,
    show ((k : ℝ) / 24) * π * 2 = (k : ℝ) * (π / 12) by ring]
  norm_num

/-- Cross products of triples of oval points, via the angle addition
formulas. -/
lemma oval_cross_eq (a b c : ℕ) (ha : a < 24) (hb : b < 24) (hc : c < 24) :
    crossProduct (ovalPts.getD a default) (ovalPts.getD b default)
      (ovalPts.getD c default)
      = 9600 * (Real.sin (((c : ℝ) - (b : ℝ)) * (π / 12))
          + Real.sin (((b : ℝ) - (a : ℝ)) * (π / 12))
          + Real.sin (((a : ℝ) - (c : ℝ)) * (π / 12))) := by
  rw [ovalPts_getD a ha, ovalPts_getD b hb, ovalPts_getD c hc]
  simp only [crossProduct]
  rw [show ((c : ℝ) - (b : ℝ)) * (π / 12)
        = (c : ℝ) * (π / 12) - (b : ℝ) * (π / 12) by ring,
    show ((b : ℝ) - (a : ℝ)) * (π / 12)
        = (b : ℝ) * (π / 12) - (a : ℝ) * (π / 12) by ring,
    show ((a : ℝ) - (c : ℝ)) * (π / 12)
        = (a : ℝ) * (π / 12) - (c : ℝ) * (π / 12) by ring,
    Real.sin_sub, Real.sin_sub, Real.sin_sub]
  ring

/-- No two non-adjacent oval segments (in the open-path sense tested by the
validator) intersect: the 24-gon inscribed in the ellipse is convex, so all
four cross products in `segmentsIntersect` are strictly positive. -/
lemma oval_no_intersect (i k : ℕ) (hk3 : 3 ≤ k) (hik : i + k ≤ 22) :
    ¬ segmentsIntersect ⟨ovalPts.getD i default, ovalPts.getD (i + 1) default⟩
      ⟨ovalPts.getD (i + k) default, ovalPts.getD (i + k + 1) default⟩ := by
  have hi : i < 24 := by omega
  have hi1 : i + 1 < 24 := by omega
  have hj : i + k < 24 := by omega
  have hj1 : i + k + 1 < 24 := by omega
  have hcast : ((k - 1 : ℕ) : ℝ) = (k : ℝ) - 1 := by
    rw [Nat.cast_sub (by omega)]
    norm_num
  have hFk1 : 0 < Real.sin (π / 12) + Real.sin ((k : ℝ) * (π / 12))
      - Real.sin (((k : ℝ) + 1) * (π / 12)) := sin_step_pos k (by omega) (by omega)
  have hFk : 0 < Real.sin (π / 12) + Real.sin (((k : ℝ) - 1) * (π / 12))
      - Real.sin ((k : ℝ) * (π / 12)) := by
    have h := sin_step_pos (k - 1) (by omega) (by omega)
    rw [hcast, show ((k : ℝ) - 1 + 1) * (π / 12) = (k : ℝ) * (π / 12) by ring] at h
    exact h
  have hd1 : crossProduct (ovalPts.getD (i + k) default)
      (ovalPts.getD (i + k + 1) default) (ovalPts.getD i default)
      = 9600 * (Real.sin (π / 12) + Real.sin ((k : ℝ) * (π / 12))
          - Real.sin (((k : ℝ) + 1) * (π / 12))) := by
    rw [oval_cross_eq _ _ _ hj hj1 hi,
      show ((i : ℝ) - ((i + k + 1 : ℕ) : ℝ)) * (π / 12)
          = -((((k : ℝ) + 1)) * (π / 12)) by push_cast; ring,
      show (((i + k + 1 : ℕ) : ℝ) - ((i + k : ℕ) : ℝ)) * (π / 12) = π / 12 by
        push_cast; ring,
      show (((i + k : ℕ) : ℝ) - (i : ℝ)) * (π / 12) = (k : ℝ) * (π / 12) by
        push_cast; ring,
      Real.sin_neg]
    ring
  have hd2 : crossProduct (ovalPts.getD (i + k) default)
      (ovalPts.getD (i + k + 1) default) (ovalPts.getD (i + 1) default)
      = 9600 * (Real.sin (π / 12) + Real.sin (((k : ℝ) - 1) * (π / 12))
          - Real.sin ((k : ℝ) * (π / 12))) := by
    rw [oval_cross_eq _ _ _ hj hj1 hi1,
      show (((i + 1 : ℕ) : ℝ) - ((i + k + 1 : ℕ) : ℝ)) * (π / 12)
          = -((k : ℝ) * (π / 12)) by push_cast; ring,
      show (((i + k + 1 : ℕ) : ℝ) - ((i + k : ℕ) : ℝ)) * (π / 12) = π / 12 by
        push_cast; ring,
      show (((i + k : ℕ) : ℝ) - ((i + 1 : ℕ) : ℝ)) * (π / 12)
          = ((k : ℝ) - 1) * (π / 12) by push_cast; ring,
      Real.sin_neg]
    ring
  have hd3 : crossProduct (ovalPts.getD i default) (ovalPts.getD (i + 1) default)
      (ovalPts.getD (i + k) default)
      = 9600 * (Real.sin (π / 12) + Real.sin (((k : ℝ) - 1) * (π / 12))
          - Real.sin ((k : ℝ) * (π / 12))) := by
    rw [oval_cross_eq _ _ _ hi hi1 hj,
      show (((i + k : ℕ) : ℝ) - ((i + 1 : ℕ) : ℝ)) * (π / 12)
          = ((k : ℝ) - 1) * (π / 12) by push_cast; ring,
      show (((i + 1 : ℕ) : ℝ) - (i : ℝ)) * (π / 12) = π / 12 by push_cast; ring,
      show ((i : ℝ) - ((i + k : ℕ) : ℝ)) * (π / 12) = -((k : ℝ) * (π / 12)) by
        push_cast; ring,
      Real.sin_neg]
    ring
  have hd4 : crossProduct (ovalPts.getD i default) (ovalPts.getD (i + 1) default)
      (ovalPts.getD (i + k + 1) default)
      = 9600 * (Real.sin (π / 12) + Real.sin ((k : ℝ) * (π / 12))
          - Real.sin (((k : ℝ) + 1) * (π / 12))) := by
    rw [oval_cross_eq _ _ _ hi hi1 hj1,
      show (((i + k + 1 : ℕ) : ℝ) - ((i + 1 : ℕ) : ℝ)) * (π / 12)
          = (k : ℝ) * (π / 12) by push_cast; ring,
      show (((i + 1 : ℕ) : ℝ) - (i : ℝ)) * (π / 12) = π / 12 by push_cast; ring,
      show ((i : ℝ) - ((i + k + 1 : ℕ) : ℝ)) * (π / 12)
          = -((((k : ℝ) + 1)) * (π / 12)) by push_cast; ring,
      Real.sin_neg]
    ring
  intro hint
  simp only [segmentsIntersect] at hint
  rw [hd1, hd2, hd3, hd4] at hint
  rcases hint with ⟨h12, h34⟩ | ⟨h0, h'⟩ | ⟨h0, h'⟩ | ⟨h0, h'⟩ | ⟨h0, h'⟩
  · rcases h12 with ⟨ha, hb⟩ | ⟨ha, hb⟩
    · linarith
    · linarith
  · linarith
  · linarith
  · linarith
  · linarith


/-- With the loop not recognised as closed the validator tests the 24 oval
points as an open path: no pair of segments at index distance at least 3 (and
no wrap-around pair) intersects. -/
lemma oval_selfint (c : Prop) (hc : ¬ c) : findSelfIntersections ovalPts c = [] := by
  have hc' : c ↔ False := iff_false_intro hc
  simp only [findSelfIntersections, INTERSECTION_SKIP_COUNT, ovalPts_length, hc',
    if_false, and_false, false_and, not_false_iff, and_true, ite_false]
  refine List.flatMap_eq_nil_iff.mpr ?_
  intro i hi
  rw [List.mem_range] at hi
  refine List.filterMap_eq_nil_iff.mpr ?_
  intro j hj
  rw [List.mem_range'_1] at hj
  obtain ⟨k, hk3, hk22, rfl⟩ : ∃ k, 3 ≤ k ∧ i + k ≤ 22 ∧ j = i + k :=
    ⟨j - i, by omega, by omega, by omega⟩
  rw [if_neg (show ¬ 24 ≤ i + k + 1 by omega),
    if_neg (oval_no_intersect i k hk3 hk22)]


/-! ## `assignTrackProperties` preserves the point coordinates -/

lemma range_map_getD (l : List Point2D) :
    (List.range l.length).map (fun i => l.getD i default) = l := by
  apply List.ext_getElem?
  intro n
  rw [List.getElem?_map]
  by_cases hn : n < l.length
  · rw [List.getElem?_range hn, List.getElem?_eq_getElem hn]
    simp [List.getD_eq_getElem?_getD, List.getElem?_eq_getElem hn]
  · rw [List.getElem?_eq_none (by simpa using hn),
      List.getElem?_eq_none (le_of_not_lt hn)]
    rfl

lemma markCheckpoint_coords (l : List TrackWaypoint) (i : ℕ) :
    (markCheckpoint l i).map waypointCoords = l.map waypointCoords := by
  rcases lt_or_le i l.length with h | h
  · rw [markCheckpoint, List.map_set]
    apply List.ext_getElem?
    intro n
    rw [List.getElem?_set]
    split
    · next heq =>
      subst heq
      rw [if_pos (by simpa using h), List.getElem?_eq_getElem (by simpa using h)]
      congr 1
      rw [List.getElem_map]
      rw [List.getD_eq_getElem?_getD, List.getElem?_eq_getElem h]
      rfl
    · rfl
  · rw [markCheckpoint, List.set_eq_of_length_le (by simpa using h)]

/-- The waypoints built by `assignTrackProperties` sit at exactly the input
coordinates: curvature analysis only fills widths, speeds and checkpoint
flags. -/
lemma assignTrackProperties_coords (points : List Point2D) :
    (assignTrackProperties points).map waypointCoords = points := by
  simp only [assignTrackProperties]
  have hw : ((List.range points.length).map fun i =>
      let point := points.getD i default
      let data := (analyzeTrackCurvature points).getD i dfltCurv
      { x := point.x, z := point.z, width := data.suggestedWidth,
        speedLimit := data.suggestedSpeed, isCheckpoint := False : TrackWaypoint }).map
        waypointCoords = points := by
    rw [List.map_map]
    exact range_map_getD points
  split
  · rw [markCheckpoint_coords, markCheckpoint_coords, markCheckpoint_coords,
      markCheckpoint_coords]
    exact hw
  · exact hw


/-! ## The closure gap of the oval -/

lemma cv23 : Real.cos ((23 : ℝ) * (π / 12)) = (Real.sqrt 6 + Real.sqrt 2) / 4 := by
  rw [show (23 : ℝ) * (π / 12) = 2 * π - π / 12 by ring, Real.cos_sub,
    Real.cos_two_pi, Real.sin_two_pi, cos_pi12]
  ring

lemma sqrt2_ub' : Real.sqrt 2 ≤ 1.41422 := by
  rw [show (1.41422 : ℝ) = Real.sqrt (1.41422 ^ 2) by rw [Real.sqrt_sq (by norm_num)]]
  exact Real.sqrt_le_sqrt (by norm_num)

lemma sqrt6_ub' : Real.sqrt 6 ≤ 2.4495 := by
  rw [show (2.4495 : ℝ) = Real.sqrt (2.4495 ^ 2) by rw [Real.sqrt_sq (by norm_num)]]
  exact Real.sqrt_le_sqrt (by norm_num)

lemma sqrt12_lb : (3.464 : ℝ) ≤ Real.sqrt 12 := by
  rw [show (3.464 : ℝ) = Real.sqrt (3.464 ^ 2) by rw [Real.sqrt_sq (by norm_num)]]
  exact Real.sqrt_le_sqrt (by norm_num)

lemma sqrt12_eq : Real.sqrt 12 = Real.sqrt 6 * Real.sqrt 2 := by
  rw [show (12 : ℝ) = 6 * 2 by norm_num, Real.sqrt_mul (by norm_num)]

/-- The gap between the first oval point `(120, 0)` and the last one (at
angle `23π/12`) exceeds the 20-metre closure tolerance: its square is
`24800 - 7200(√6 + √2) + 1000√12 ≈ 445.4 > 400`. -/
lemma oval_gap : MAX_CLOSURE_DISTANCE <
    distance (ovalPts.getD 0 default) (ovalPts.getD (ovalPts.length - 1) default) := by
  rw [ovalPts_length, show (24 : ℕ) - 1 = 23 from rfl,
    ovalPts_getD 0 (by norm_num), ovalPts_getD 23 (by norm_num)]
  have h0 : ((0 : ℕ) : ℝ) * (π / 12) = 0 := by norm_num
  have h23 : ((23 : ℕ) : ℝ) * (π / 12) = (23 : ℝ) * (π / 12) := by norm_num
  rw [h0, h23, Real.cos_zero, Real.sin_zero, cv23, sv23, MAX_CLOSURE_DISTANCE, distance]
  have h2 : Real.sqrt 2 * Real.sqrt 2 = 2 := Real.mul_self_sqrt (by norm_num)
  have h6 : Real.sqrt 6 * Real.sqrt 6 = 6 := Real.mul_self_sqrt (by norm_num)
  rw [show (20 : ℝ) = Real.sqrt (20 ^ 2) by rw [Real.sqrt_sq (by norm_num)]]
  apply Real.sqrt_lt_sqrt (by norm_num)
  have hE : ((Real.sqrt 6 + Real.sqrt 2) / 4 * 120 - 1 * 120)
        * ((Real.sqrt 6 + Real.sqrt 2) / 4 * 120 - 1 * 120)
      + (-((Real.sqrt 6 - Real.sqrt 2) / 4) * 80 - 0 * 80)
        * (-((Real.sqrt 6 - Real.sqrt 2) / 4) * 80 - 0 * 80)
      = 24800 - 7200 * Real.sqrt 6 - 7200 * Real.sqrt 2
        + 1000 * (Real.sqrt 6 * Real.sqrt 2) := by
    linear_combination 1300 * h6 + 1300 * h2
  rw [hE, ← sqrt12_eq]
  have hu6 := sqrt6_ub'
  have hu2 := sqrt2_ub'
  have hl12 := sqrt12_lb
  norm_num
  linarith

/-- The validator therefore reports the generated oval as not closed. -/
lemma ovalPts_not_closed :
    ¬ (2 ≤ ovalPts.length ∧
        distance (ovalPts.getD 0 default) (ovalPts.getD (ovalPts.length - 1) default)
          ≤ MAX_CLOSURE_DISTANCE) := by
  rintro ⟨-, h⟩
  exact absurd h (not_le.mpr oval_gap)

/-- The coordinates handed to `validateTrack` in the oval scenario are
exactly the 24 parametric oval points. -/
lemma generateOvalTrack_coords :
    (generateOvalTrack 200 1.5).map waypointCoords = ovalPts :=
  assignTrackProperties_coords (ovalPoints 200 1.5)


/-- When the self-intersection scan comes back empty, no error produced by
`validateTrack` (without a width list) carries the `self_intersection` type:
the remaining checks emit only `too_few_points`, `not_closed`, `too_short`
and `invalid_geometry`. -/
lemma validateTrack_no_selfint_types (points : List Point2D) (e : ValidationError)
    (hfsi : findSelfIntersections points (2 ≤ points.length ∧
      distance (points.getD 0 default) (points.getD (points.length - 1) default)
        ≤ MAX_CLOSURE_DISTANCE) = [])
    (he : e ∈ (validateTrack points none).errors) :
    e.type ≠ ErrorType.self_intersection := by
  simp only [validateTrack] at he
  rw [hfsi] at he
  simp only [List.map_nil, List.append_nil] at he
  rcases List.mem_append.mp he with he | he
  · rcases List.mem_append.mp he with he | he
    · rcases List.mem_append.mp he with he | he
      · split at he
        · simp only [List.mem_singleton] at he
          subst he
          simp
        · exact absurd he (List.not_mem_nil e)
      · split at he
        · exact absurd he (List.not_mem_nil e)
        · simp only [List.mem_singleton] at he
          subst he
          simp
    · split at he
      · simp only [List.mem_singleton] at he
        subst he
        simp
      · exact absurd he (List.not_mem_nil e)
  · obtain ⟨i, hi, hsome⟩ := List.mem_filterMap.mp he
    split at hsome
    · obtain rfl := Option.some.inj hsome
      simp
    · exact absurd hsome (by simp)

/-- C1, counterexample: the spec scenario fails as stated.  For
`generateOvalTrack` at `worldSize = 200` with the default aspect ratio the
validated stats do NOT report the track as closed (the closure gap between
the first and last oval point is about `21.1`, above the 20-metre
tolerance), so the claimed conjunction is false. -/
theorem oval_track_claim_counterexample :
    ¬ ((validateTrack ((generateOvalTrack 200).map waypointCoords) none).stats.isClosed
      ∧ ∀ e ∈ (validateTrack ((generateOvalTrack 200).map waypointCoords) none).errors,
          e.type ≠ ErrorType.self_intersection) := by
  rw [generateOvalTrack_coords]
  rintro ⟨hcl, -⟩
  exact ovalPts_not_closed hcl

/-- C1 (amended): `generateOvalTrack(worldSize=200)` (default aspect ratio),
passed through `validateTrack`, reports `isClosed = false` — the generated
24-point oval leaves a closure gap of about `21.1`, just above the 20-metre
tolerance — while still producing zero `self_intersection` errors: the
convex inscribed polygon has no crossing segment pair. -/
theorem oval_track_validation :
    ¬ (validateTrack ((generateOvalTrack 200).map waypointCoords) none).stats.isClosed
    ∧ ∀ e ∈ (validateTrack ((generateOvalTrack 200).map waypointCoords) none).errors,
        e.type ≠ ErrorType.self_intersection := by
  rw [generateOvalTrack_coords]
  constructor
  · intro hcl
    exact ovalPts_not_closed hcl
  · intro e he
    exact validateTrack_no_selfint_types ovalPts e
      (oval_selfint _ ovalPts_not_closed) he

end Track
